import Mathlib

/-!
Shallow embedding of the inventory SaaS core (storage layer and inventory
routes) and proofs about its specified properties.

The embedding follows `server/storage.ts` (classes `MemStorage` and
`DatabaseStorage`) and `server/routes.ts` (`registerRoutes`).  JS strings are
modelled as `List Char`, JS numbers that hold integer counters as `Int` or
`Nat`, JS `Map`s as association lists keyed by the entity id, and fallible
operations (JS `throw`) as `Option`-returning functions.
-/

namespace InventoryApp

/-! ### Decimal rendering, `Number.prototype.toString()` -/

/-- Fuel-indexed decimal rendering of a natural number, most significant digit
first.  `decChars (n+1) n` equals JS `n.toString()` (base 10). -/
def decChars : Nat → Nat → List Char
  | 0, _ => []
  | fuel + 1, n =>
    if n < 10 then [Nat.digitChar n]
    else decChars fuel (n / 10) ++ [Nat.digitChar (n % 10)]

/-- Model of JS `currentId.toString()`: decimal digits of `n`, msd first. -/
def decRepr (n : Nat) : List Char := decChars (n + 1) n

/-- Model of JS `String.prototype.padStart(len, c)`. -/
def padStart (s : List Char) (len : Nat) (c : Char) : List Char :=
  List.replicate (len - s.length) c ++ s

/-- The regex-replace callback of `generateAssetId`:
`currentId.toString().padStart(match.length, '0')`. -/
def padNum (len n : Nat) : List Char := padStart (decRepr n) len '0'

/-! ### `pattern.replace(/#+/g, ...)` -/

/-- Worker for `replaceRuns`: `r` is the length of the run of `'#'`
characters read immediately before the current position. -/
def replaceRunsAux : List Char → Nat → Nat → List Char
  | [], n, r => if r = 0 then [] else padNum r n
  | c :: rest, n, r =>
    if c = '#' then replaceRunsAux rest n (r + 1)
    else (if r = 0 then [] else padNum r n) ++ c :: replaceRunsAux rest n 0

/-- Model of `pattern.replace(/#+/g, m => currentId.toString().padStart(m.length, '0'))`
from `generateAssetId` in `server/storage.ts`: every maximal run of `'#'` is
replaced by the counter, left-padded with zeros to the run's length. -/
def replaceRuns (p : List Char) (n : Nat) : List Char := replaceRunsAux p n 0

/-- Modelled from the spec: the §4.5 edge-case policy reading under which only
the *first* maximal placeholder run is the substitution target and every
subsequent run is left literal.  Used only to compare the spec's words with
the code's `replaceRuns`. -/
def firstRunOnlyAux : List Char → Nat → Nat → List Char
  | [], n, r => if r = 0 then [] else padNum r n
  | c :: rest, n, r =>
    if c = '#' then firstRunOnlyAux rest n (r + 1)
    else if r = 0 then c :: firstRunOnlyAux rest n 0
    else padNum r n ++ c :: rest

/-- Modelled from the spec (§4.2 edge-case policy): substitute only the first
placeholder run, leaving subsequent runs literal. -/
def firstRunOnly (p : List Char) (n : Nat) : List Char := firstRunOnlyAux p n 0

/-- A pattern assembled from segments: each segment is a literal chunk
followed by a placeholder run of the given length, and a trailing literal
closes the pattern.  Every pattern is of this shape, and when the literals
are `'#'`-free (the chunks between runs nonempty), the runs listed are
exactly the pattern's disjoint maximal placeholder runs. -/
def buildPattern (segs : List (List Char × Nat)) (tail : List Char) : List Char :=
  match segs with
  | [] => tail
  | (a, L) :: rest => a ++ List.replicate L '#' ++ buildPattern rest tail

/-- The same segments with *every* run replaced by the zero-padded counter:
the shape of a rendering in which no run is left literal. -/
def buildRendered (segs : List (List Char × Nat)) (tail : List Char) (n : Nat) :
    List Char :=
  match segs with
  | [] => tail
  | (a, L) :: rest => a ++ padNum L n ++ buildRendered rest tail n

/-- The lengths of the maximal `'#'` runs of a pattern, given that a run of
length `r` immediately precedes the current position. -/
def runLens : List Char → Nat → List Nat
  | [], r => if r = 0 then [] else [r]
  | c :: rest, r =>
    if c = '#' then runLens rest (r + 1)
    else (if r = 0 then [] else [r]) ++ runLens rest 0

/-- The list `b` does not begin with the placeholder character. -/
def headNotHash (b : List Char) : Prop := ∀ c cs, b = c :: cs → c ≠ '#'

/-! ### Data model (`@shared/schema` as used by `storage.ts` and `routes.ts`) -/

/-- A tenant (`companies` row).  Dates are modelled as `Nat` timestamps. -/
structure Company where
  id : Nat
  name : List Char
  assetIdPattern : List Char
  currentAssetId : Nat
  subscriptionTier : List Char
  subscriptionStatus : List Char
  createdAt : Nat
deriving DecidableEq, Repr

/-- A department (`departments` row); counters are JS numbers, so `Int`. -/
structure Department where
  id : Nat
  companyId : Nat
  name : List Char
  assetCount : Int
  capacityUsed : Int
  createdAt : Nat
deriving DecidableEq, Repr

/-- A user-department membership edge. -/
structure UserDepartment where
  id : Nat
  userId : Nat
  departmentId : Nat
deriving DecidableEq, Repr

/-- An inventory item (`inventory_items` row). -/
structure InventoryItem where
  id : Nat
  companyId : Nat
  departmentId : Nat
  name : List Char
  assetId : List Char
  status : List Char
  description : Option (List Char)
  location : Option (List Char)
  quantity : Nat
  unitPrice : Option Int
  purchaseDate : Option Nat
  customFields : Option (List Char)
  createdBy : Nat
  updatedBy : Nat
  createdAt : Nat
  updatedAt : Nat
deriving DecidableEq, Repr

/-- An activity-log entry (`activity_logs` row). -/
structure ActivityLog where
  id : Nat
  companyId : Nat
  action : List Char
  itemId : Nat
  assetId : List Char
  itemName : List Char
  departmentName : List Char
  userId : Nat
  userName : List Char
  createdAt : Nat
deriving DecidableEq, Repr

/-- `InsertInventoryItem`: the validated creation payload. -/
structure InsertInventoryItem where
  companyId : Nat
  departmentId : Nat
  name : List Char
  status : Option (List Char) := none
  description : Option (List Char) := none
  location : Option (List Char) := none
  quantity : Nat := 1
  unitPrice : Option Int := none
  purchaseDate : Option Nat := none
  customFields : Option (List Char) := none
  createdBy : Nat := 0
  updatedBy : Nat := 0
deriving DecidableEq, Repr

/-- `Partial<InventoryItem>` (the PUT body spread into the update): a present
field overrides the stored one, as the JS object spread does. -/
structure ItemPatch where
  companyId : Option Nat := none
  departmentId : Option Nat := none
  name : Option (List Char) := none
  assetId : Option (List Char) := none
  status : Option (List Char) := none
  description : Option (Option (List Char)) := none
  location : Option (Option (List Char)) := none
  quantity : Option Nat := none
  unitPrice : Option (Option Int) := none
  purchaseDate : Option (Option Nat) := none
  customFields : Option (Option (List Char)) := none
  createdBy : Option Nat := none
  updatedBy : Option Nat := none
deriving DecidableEq, Repr

/-- `Partial<Department>` as used by `updateDepartment` callers. -/
structure DepartmentPatch where
  name : Option (List Char) := none
  assetCount : Option Int := none
  capacityUsed : Option Int := none
deriving DecidableEq, Repr

/-- `InsertActivityLog`: the log payload built by the routes. -/
structure InsertActivityLog where
  companyId : Nat
  action : List Char
  itemId : Nat
  assetId : List Char
  itemName : List Char
  departmentName : List Char
  userId : Nat
  userName : List Char
deriving DecidableEq, Repr

/-- The `MemStorage` state: JS `Map`s become id-keyed association lists. -/
structure Storage where
  companies : List Company
  departments : List Department
  userDepartments : List UserDepartment
  inventoryItems : List InventoryItem
  activityLogs : List ActivityLog
  inventoryItemIdCounter : Nat
  activityLogIdCounter : Nat
deriving DecidableEq, Repr

/-! ### JS helpers -/

/-- JS `x || d` for an optional string: the empty string is falsy. -/
def orDefault (o : Option (List Char)) (d : List Char) : List Char :=
  match o with
  | some s => if s.isEmpty then d else s
  | none => d

/-- JS `x || null` for an optional string. -/
def orNull (o : Option (List Char)) : Option (List Char) :=
  match o with
  | some s => if s.isEmpty then none else some s
  | none => none

/-- JS `x || null` for an optional number: `0` is falsy. -/
def orNullInt (o : Option Int) : Option Int :=
  match o with
  | some v => if v = 0 then none else some v
  | none => none

/-- JS `Map.prototype.set` keyed by the entity id: replace if the key is
present, append otherwise. -/
def setById {α : Type} (getId : α → Nat) (l : List α) (v : α) : List α :=
  if l.any (fun x => getId x == getId v) then
    l.map (fun x => if getId x == getId v then v else x)
  else l ++ [v]

/-- JS `Map.prototype.get` by id (`find?` over the association list). -/
def findById {α : Type} (getId : α → Nat) (l : List α) (i : Nat) : Option α :=
  l.find? (fun x => getId x == i)

/-! ### `MemStorage` operations (`server/storage.ts`) -/

def getCompany (s : Storage) (id : Nat) : Option Company :=
  findById Company.id s.companies id

def getDepartment (s : Storage) (id : Nat) : Option Department :=
  findById Department.id s.departments id

def getInventoryItem (s : Storage) (id : Nat) : Option InventoryItem :=
  findById InventoryItem.id s.inventoryItems id

/-- `MemStorage.generateAssetId`: render the pattern with the current counter,
then store the company with the counter advanced by one.  A missing company is
the JS `throw`, modelled as `none`. -/
def generateAssetId (s : Storage) (companyId : Nat) : Option (List Char × Storage) :=
  match getCompany s companyId with
  | none => none
  | some company =>
    let assetId := replaceRuns company.assetIdPattern company.currentAssetId
    let updatedCompany := { company with currentAssetId := company.currentAssetId + 1 }
    some (assetId, { s with companies := setById Company.id s.companies updatedCompany })

def applyDeptPatch (d : Department) (p : DepartmentPatch) : Department :=
  { d with
    name := p.name.getD d.name
    assetCount := p.assetCount.getD d.assetCount
    capacityUsed := p.capacityUsed.getD d.capacityUsed }

/-- `MemStorage.updateDepartment`. -/
def updateDepartment (s : Storage) (id : Nat) (data : DepartmentPatch) :
    Option (Department × Storage) :=
  match getDepartment s id with
  | none => none
  | some department =>
    let updatedDepartment := applyDeptPatch department data
    some (updatedDepartment,
      { s with departments := setById Department.id s.departments updatedDepartment })

/-- `MemStorage.createInventoryItem`.  The id counter is consumed before
`generateAssetId` runs, exactly as in the source; a failed generation (missing
company) leaves the bumped counter behind and throws (`none`). -/
def createInventoryItem (s : Storage) (itemData : InsertInventoryItem) (now : Nat) :
    Option InventoryItem × Storage :=
  let id := s.inventoryItemIdCounter
  let s0 := { s with inventoryItemIdCounter := s.inventoryItemIdCounter + 1 }
  match generateAssetId s0 itemData.companyId with
  | none => (none, s0)
  | some (assetId, s1) =>
    let inventoryItem : InventoryItem :=
      { id := id
        companyId := itemData.companyId
        departmentId := itemData.departmentId
        name := itemData.name
        assetId := assetId
        status := orDefault itemData.status "active".data
        description := orNull itemData.description
        location := orNull itemData.location
        quantity := itemData.quantity
        unitPrice := orNullInt itemData.unitPrice
        purchaseDate := itemData.purchaseDate
        customFields := itemData.customFields
        createdBy := itemData.createdBy
        updatedBy := itemData.updatedBy
        createdAt := now
        updatedAt := now }
    let s2 := { s1 with
      inventoryItems := setById InventoryItem.id s1.inventoryItems inventoryItem }
    match getDepartment s2 itemData.departmentId with
    | some department =>
      match updateDepartment s2 department.id
          { assetCount := some (department.assetCount + 1)
            capacityUsed := some (department.capacityUsed + 10) } with
      | some (_, s3) => (some inventoryItem, s3)
      | none => (none, s2)
    | none => (some inventoryItem, s2)

def applyItemPatch (item : InventoryItem) (p : ItemPatch) : InventoryItem :=
  { item with
    companyId := p.companyId.getD item.companyId
    departmentId := p.departmentId.getD item.departmentId
    name := p.name.getD item.name
    assetId := p.assetId.getD item.assetId
    status := p.status.getD item.status
    description := p.description.getD item.description
    location := p.location.getD item.location
    quantity := p.quantity.getD item.quantity
    unitPrice := p.unitPrice.getD item.unitPrice
    purchaseDate := p.purchaseDate.getD item.purchaseDate
    customFields := p.customFields.getD item.customFields
    createdBy := p.createdBy.getD item.createdBy
    updatedBy := p.updatedBy.getD item.updatedBy }

/-- `MemStorage.updateInventoryItem`: `{ ...item, ...data, updatedAt: now }`. -/
def updateInventoryItem (s : Storage) (id : Nat) (data : ItemPatch) (now : Nat) :
    Option (InventoryItem × Storage) :=
  match getInventoryItem s id with
  | none => none
  | some item =>
    let updatedItem := { applyItemPatch item data with updatedAt := now }
    some (updatedItem,
      { s with inventoryItems := setById InventoryItem.id s.inventoryItems updatedItem })

/-- `MemStorage.deleteInventoryItem`: adjust the department counters (clamped
at 0) when the department is found, then remove the row. -/
def deleteInventoryItem (s : Storage) (id : Nat) : Option Storage :=
  match getInventoryItem s id with
  | none => none
  | some item =>
    let s1 :=
      match getDepartment s item.departmentId with
      | some department =>
        match updateDepartment s department.id
            { assetCount := some (max 0 (department.assetCount - 1))
              capacityUsed := some (max 0 (department.capacityUsed - 10)) } with
        | some (_, s') => s'
        | none => s
      | none => s
    some { s1 with inventoryItems := s1.inventoryItems.filter (fun it => it.id != id) }

/-- `MemStorage.createActivityLog`. -/
def createActivityLog (s : Storage) (logData : InsertActivityLog) (now : Nat) :
    ActivityLog × Storage :=
  let id := s.activityLogIdCounter
  let activityLog : ActivityLog :=
    { id := id
      companyId := logData.companyId
      action := logData.action
      itemId := logData.itemId
      assetId := logData.assetId
      itemName := logData.itemName
      departmentName := logData.departmentName
      userId := logData.userId
      userName := logData.userName
      createdAt := now }
  (activityLog,
    { s with
      activityLogs := setById ActivityLog.id s.activityLogs activityLog
      activityLogIdCounter := s.activityLogIdCounter + 1 })

/-! ### Route handlers (`server/routes.ts`) -/

/-- The authenticated identity placed on the request by the auth layer. -/
structure AuthUser where
  id : Nat
  companyId : Nat
  role : List Char
  name : List Char
deriving DecidableEq, Repr

/-- The HTTP outcomes of the inventory routes. -/
inductive RouteResp where
  | created (item : InventoryItem)
  | okItem (item : InventoryItem)
  | okDeleted
  | badRequest (msg : List Char)
  | forbidden (msg : List Char)
  | notFound (msg : List Char)
  | serverError
deriving DecidableEq, Repr

/-- `getUserDepartments(user.id).some(ud => ud.departmentId === departmentId)`. -/
def hasDeptAccess (s : Storage) (userId deptId : Nat) : Bool :=
  (s.userDepartments.filter (fun ud => ud.userId == userId)).any
    (fun ud => ud.departmentId == deptId)

/-- `POST /api/inventory`: department check, role/membership check, item
creation, then the "added" activity log. -/
def postInventory (s : Storage) (user : AuthUser) (body : InsertInventoryItem)
    (now : Nat) : RouteResp × Storage :=
  if body.departmentId = 0 then
    (RouteResp.badRequest "Department ID is required".data, s)
  else if user.role ≠ "admin".data ∧ ¬ hasDeptAccess s user.id body.departmentId then
    (RouteResp.forbidden "You don't have access to this department".data, s)
  else
    let itemData := { body with
      companyId := user.companyId, createdBy := user.id, updatedBy := user.id }
    match createInventoryItem s itemData now with
    | (none, s') => (RouteResp.serverError, s')
    | (some item, s1) =>
      let departmentName :=
        orDefault ((getDepartment s1 item.departmentId).map Department.name) "Unknown".data
      let (_, s2) := createActivityLog s1
        { companyId := user.companyId
          action := "added".data
          itemId := item.id
          assetId := item.assetId
          itemName := item.name
          departmentName := departmentName
          userId := user.id
          userName := user.name } now
      (RouteResp.created item, s2)

/-- `PUT /api/inventory/:id`: existence check, tenant check, role/membership
check, update, then the "updated" activity log. -/
def putInventory (s : Storage) (user : AuthUser) (itemId : Nat) (body : ItemPatch)
    (now : Nat) : RouteResp × Storage :=
  match getInventoryItem s itemId with
  | none => (RouteResp.notFound "Item not found".data, s)
  | some existingItem =>
    if existingItem.companyId ≠ user.companyId then
      (RouteResp.forbidden "Access denied".data, s)
    else if user.role ≠ "admin".data ∧ ¬ hasDeptAccess s user.id existingItem.departmentId then
      (RouteResp.forbidden "You don't have access to this department".data, s)
    else
      match updateInventoryItem s itemId { body with updatedBy := some user.id } now with
      | none => (RouteResp.serverError, s)
      | some (updatedItem, s1) =>
        let departmentName :=
          orDefault ((getDepartment s1 updatedItem.departmentId).map Department.name)
            "Unknown".data
        let (_, s2) := createActivityLog s1
          { companyId := user.companyId
            action := "updated".data
            itemId := updatedItem.id
            assetId := updatedItem.assetId
            itemName := updatedItem.name
            departmentName := departmentName
            userId := user.id
            userName := user.name } now
        (RouteResp.okItem updatedItem, s2)

/-- `DELETE /api/inventory/:id`: existence check, tenant check, admin check,
snapshot of the item's display values, deletion, then the "removed" log. -/
def deleteInventory (s : Storage) (user : AuthUser) (itemId : Nat) (now : Nat) :
    RouteResp × Storage :=
  match getInventoryItem s itemId with
  | none => (RouteResp.notFound "Item not found".data, s)
  | some existingItem =>
    if existingItem.companyId ≠ user.companyId then
      (RouteResp.forbidden "Access denied".data, s)
    else if user.role ≠ "admin".data then
      (RouteResp.forbidden "Only admins can delete items".data, s)
    else
      let itemName := existingItem.name
      let departmentName :=
        orDefault ((getDepartment s existingItem.departmentId).map Department.name)
          "Unknown".data
      let assetId := existingItem.assetId
      match deleteInventoryItem s itemId with
      | none => (RouteResp.serverError, s)
      | some s1 =>
        let (_, s2) := createActivityLog s1
          { companyId := user.companyId
            action := "removed".data
            itemId := itemId
            assetId := assetId
            itemName := itemName
            departmentName := departmentName
            userId := user.id
            userName := user.name } now
        (RouteResp.okDeleted, s2)

/-! ### The database-backed creation flow with independently failable writes

`DatabaseStorage.createInventoryItem` plus the POST route issue four separate
durable writes (company counter update, item insert, department counters
update, activity-log insert) with no surrounding transaction; the route's
`catch` only replies 500 and compensates nothing.  The oracle `fail` says
which write throws. -/

/-- The four durable writes of one logical item creation. -/
inductive DbStep where
  | counterWrite
  | itemInsert
  | deptWrite
  | logInsert
deriving DecidableEq, Repr

/-- `POST /api/inventory` against `DatabaseStorage`, each durable write
independently failable.  On a failure every earlier write stays applied. -/
def dbPostInventory (fail : DbStep → Bool) (s : Storage) (user : AuthUser)
    (body : InsertInventoryItem) (now : Nat) : RouteResp × Storage :=
  if body.departmentId = 0 then
    (RouteResp.badRequest "Department ID is required".data, s)
  else if user.role ≠ "admin".data ∧ ¬ hasDeptAccess s user.id body.departmentId then
    (RouteResp.forbidden "You don't have access to this department".data, s)
  else
    let itemData := { body with
      companyId := user.companyId, createdBy := user.id, updatedBy := user.id }
    match getCompany s itemData.companyId with
    | none => (RouteResp.serverError, s)
    | some company =>
      let assetId := replaceRuns company.assetIdPattern company.currentAssetId
      if fail DbStep.counterWrite then (RouteResp.serverError, s)
      else
        let updatedCompany := { company with currentAssetId := company.currentAssetId + 1 }
        let s1 := { s with companies := setById Company.id s.companies updatedCompany }
        if fail DbStep.itemInsert then (RouteResp.serverError, s1)
        else
          let item : InventoryItem :=
            { id := s1.inventoryItemIdCounter
              companyId := itemData.companyId
              departmentId := itemData.departmentId
              name := itemData.name
              assetId := assetId
              status := orDefault itemData.status "active".data
              description := orNull itemData.description
              location := orNull itemData.location
              quantity := itemData.quantity
              unitPrice := itemData.unitPrice
              purchaseDate := itemData.purchaseDate
              customFields := itemData.customFields
              createdBy := itemData.createdBy
              updatedBy := itemData.updatedBy
              createdAt := now
              updatedAt := now }
          let s2 := { s1 with
            inventoryItems := setById InventoryItem.id s1.inventoryItems item
            inventoryItemIdCounter := s1.inventoryItemIdCounter + 1 }
          let afterDept : Option Storage :=
            match getDepartment s2 itemData.departmentId with
            | some department =>
              if fail DbStep.deptWrite then none
              else
                let updatedDepartment := { department with
                  assetCount := department.assetCount + 1
                  capacityUsed := department.capacityUsed + 10 }
                some { s2 with
                  departments := setById Department.id s2.departments updatedDepartment }
            | none => some s2
          match afterDept with
          | none => (RouteResp.serverError, s2)
          | some s3 =>
            if fail DbStep.logInsert then (RouteResp.serverError, s3)
            else
              let departmentName :=
                orDefault ((getDepartment s3 item.departmentId).map Department.name)
                  "Unknown".data
              let (_, s4) := createActivityLog s3
                { companyId := user.companyId
                  action := "added".data
                  itemId := item.id
                  assetId := item.assetId
                  itemName := item.name
                  departmentName := departmentName
                  userId := user.id
                  userName := user.name } now
              (RouteResp.created item, s4)

/-! ### Operation sequences and invariants -/

/-- A storage-level inventory mutation, as in spec §8 "Capacity
non-negativity": item creation or item deletion. -/
inductive InvOp where
  | create (data : InsertInventoryItem)
  | delete (id : Nat)
deriving Repr

/-- Apply one mutation.  A deletion of a missing item throws in the source and
changes nothing; a creation with a missing company throws after consuming the
id counter, which `createInventoryItem` already models in its state. -/
def applyOp (now : Nat) (s : Storage) : InvOp → Storage
  | InvOp.create data => (createInventoryItem s data now).2
  | InvOp.delete i =>
    match deleteInventoryItem s i with
    | some s' => s'
    | none => s

def applyOps (now : Nat) (s : Storage) (ops : List InvOp) : Storage :=
  ops.foldl (applyOp now) s

/-- Every department's cached counters are nonnegative. -/
def deptCountersNonneg (s : Storage) : Prop :=
  ∀ d ∈ s.departments, 0 ≤ d.assetCount ∧ 0 ≤ d.capacityUsed

/-- The next activity-log id is not already used (always true of states
reachable through the storage interface). -/
def freshLogId (s : Storage) : Prop :=
  ∀ l ∈ s.activityLogs, l.id ≠ s.activityLogIdCounter

/-- The next inventory-item id is not already used. -/
def freshItemId (s : Storage) : Prop :=
  ∀ it ∈ s.inventoryItems, it.id ≠ s.inventoryItemIdCounter

/-- Sequential item creations (spec §8 "Asset id uniqueness"): apply
`createInventoryItem` for each payload, collecting the successfully created
items. -/
def createSeq (s : Storage) (datas : List InsertInventoryItem) (now : Nat) :
    List InventoryItem × Storage :=
  match datas with
  | [] => ([], s)
  | d :: ds =>
    match createInventoryItem s d now with
    | (some item, s') =>
      let (items, s'') := createSeq s' ds now
      (item :: items, s'')
    | (none, s') => createSeq s' ds now

/-! ### Concrete fixtures -/

def com1 : Company :=
  { id := 1, name := "Acme".data, assetIdPattern := "A-####".data,
    currentAssetId := 1, subscriptionTier := "free".data,
    subscriptionStatus := "active".data, createdAt := 0 }

def dep1 : Department :=
  { id := 1, companyId := 1, name := "General".data, assetCount := 0,
    capacityUsed := 0, createdAt := 0 }

def dep2 : Department :=
  { id := 2, companyId := 1, name := "Annex".data, assetCount := 1,
    capacityUsed := 10, createdAt := 0 }

def admin1 : AuthUser :=
  { id := 7, companyId := 1, role := "admin".data, name := "Alice".data }

def body1 : InsertInventoryItem :=
  { companyId := 1, departmentId := 1, name := "Laptop".data }

/-- The item `createInventoryItem` builds from `body1` (with `companyId`,
`createdBy`, `updatedBy` overridden by the POST route for `admin1`) at
timestamp 0, given asset id counter value `i`. -/
def item1 (i : Nat) : InventoryItem :=
  { id := i, companyId := 1, departmentId := 1, name := "Laptop".data,
    assetId := replaceRuns "A-####".data i, status := "active".data,
    description := none, location := none, quantity := 1, unitPrice := none,
    purchaseDate := none, customFields := none, createdBy := 0, updatedBy := 0,
    createdAt := 0, updatedAt := 0 }

/-- Fixture for the capacity round trip: one tenant, one empty department. -/
def s70 : Storage :=
  { companies := [com1], departments := [dep1], userDepartments := [],
    inventoryItems := [], activityLogs := [], inventoryItemIdCounter := 1,
    activityLogIdCounter := 1 }

/-- The state of `s70` after `k` creations of `body1` (asset counter advanced,
department counters raised, items `1..k` present). -/
def s7c (k : Nat) : Storage :=
  { companies := [{ com1 with currentAssetId := 1 + k }],
    departments := [{ dep1 with assetCount := (k : Int), capacityUsed := 10 * (k : Int) }],
    userDepartments := [],
    inventoryItems := (List.range' 1 k).map item1,
    activityLogs := [], inventoryItemIdCounter := 1 + k, activityLogIdCounter := 1 }

/-- The state of `s7c N` after the items `1..j` have been deleted again. -/
def s7d (N j : Nat) : Storage :=
  { companies := [{ com1 with currentAssetId := 1 + N }],
    departments := [{ dep1 with assetCount := ((N - j : Nat) : Int), capacityUsed := 10 * ((N - j : Nat) : Int) }],
    userDepartments := [],
    inventoryItems := (List.range' (1 + j) (N - j)).map item1,
    activityLogs := [], inventoryItemIdCounter := 1 + N, activityLogIdCounter := 1 }

/-- Fixture with a literal (placeholder-free) asset-id pattern. -/
def s40 : Storage :=
  { companies := [{ com1 with assetIdPattern := "ITEM".data }],
    departments := [dep1], userDepartments := [], inventoryItems := [],
    activityLogs := [], inventoryItemIdCounter := 1, activityLogIdCounter := 1 }

/-- Fixture holding one item of tenant 1 in department 1, plus a second
department, for the update/delete claims. -/
def s50 : Storage :=
  { companies := [{ com1 with currentAssetId := 2 }],
    departments := [{ dep1 with assetCount := 1, capacityUsed := 10 }, dep2],
    userDepartments := [], inventoryItems := [item1 1], activityLogs := [],
    inventoryItemIdCounter := 2, activityLogIdCounter := 1 }

/-- Fixture holding one item owned by tenant 2, accessed by a tenant-1 user. -/
def s60 : Storage :=
  { companies := [com1, { com1 with id := 2 }],
    departments := [dep1], userDepartments := [],
    inventoryItems := [{ item1 1 with companyId := 2 }], activityLogs := [],
    inventoryItemIdCounter := 2, activityLogIdCounter := 1 }

/-- The oracle that makes exactly the activity-log insert fail. -/
def failAtLog : DbStep → Bool
  | DbStep.logInsert => true
  | _ => false

/-- The department-counter increments applied on item creation. -/
def incPatch (d : Department) : DepartmentPatch :=
  { assetCount := some (d.assetCount + 1), capacityUsed := some (d.capacityUsed + 10) }

/-- The clamped department-counter decrements applied on item deletion. -/
def decPatch (d : Department) : DepartmentPatch :=
  { assetCount := some (max 0 (d.assetCount - 1)), capacityUsed := some (max 0 (d.capacityUsed - 10)) }

/-- The item row `createInventoryItem` builds (named for use in the effect
lemmas; identical to the literal inside `createInventoryItem`). -/
def mkCreated (s : Storage) (data : InsertInventoryItem) (now : Nat)
    (c : Company) : InventoryItem :=
  { id := s.inventoryItemIdCounter, companyId := data.companyId,
    departmentId := data.departmentId, name := data.name,
    assetId := replaceRuns c.assetIdPattern c.currentAssetId,
    status := orDefault data.status "active".data,
    description := orNull data.description, location := orNull data.location,
    quantity := data.quantity, unitPrice := orNullInt data.unitPrice,
    purchaseDate := data.purchaseDate, customFields := data.customFields,
    createdBy := data.createdBy, updatedBy := data.updatedBy, createdAt := now,
    updatedAt := now }

/-- The activity-log row a route handler writes (used to state the audit
theorems; identical to the row built inside `createActivityLog`). -/
def routeLog (act : List Char) (itId : Nat) (aid nm dn : List Char)
    (u : AuthUser) (logId now : Nat) : ActivityLog :=
  { id := logId, companyId := u.companyId, action := act, itemId := itId,
    assetId := aid, itemName := nm, departmentName := dn, userId := u.id,
    userName := u.name, createdAt := now }

/-! ### Facts about decimal rendering -/

theorem decChars_fuel_eq : ∀ f₁ n, n < f₁ → ∀ f₂, n < f₂ →
    decChars f₁ n = decChars f₂ n := by
  intro f₁
  induction f₁ with
  | zero => intro n hn; omega
  | succ g ih =>
    intro n hn f₂ hf₂
    match f₂, hf₂ with
    | h + 1, _ =>
      by_cases h10 : n < 10
      · simp [decChars, h10]
      · have hpos : 0 < n := by omega
        have hdiv : n / 10 < n := Nat.div_lt_self hpos (by omega)
        have h₁ : n / 10 < g := by omega
        have h₂ : n / 10 < h := by omega
        simp only [decChars, h10, if_false]
        rw [ih (n / 10) h₁ h h₂]

theorem decRepr_lt10 {n : Nat} (h : n < 10) : decRepr n = [Nat.digitChar n] := by
  simp [decRepr, decChars, h]

theorem decRepr_ge10 {n : Nat} (h : 10 ≤ n) :
    decRepr n = decRepr (n / 10) ++ [Nat.digitChar (n % 10)] := by
  have h10 : ¬ n < 10 := by omega
  have hdiv : n / 10 < n := Nat.div_lt_self (by omega) (by omega)
  show decChars (n + 1) n = _
  simp only [decChars, h10, if_false]
  rw [decChars_fuel_eq n (n / 10) (by omega) (n / 10 + 1) (by omega)]
  rfl

theorem decRepr_length_pos (n : Nat) : 1 ≤ (decRepr n).length := by
  by_cases h : n < 10
  · rw [decRepr_lt10 h]; simp
  · rw [decRepr_ge10 (by omega)]; simp

theorem decRepr_ne_nil (n : Nat) : decRepr n ≠ [] := by
  have := decRepr_length_pos n
  intro h
  rw [h] at this
  simp at this

theorem digitChar_inj10 : ∀ a < 10, ∀ b < 10,
    Nat.digitChar a = Nat.digitChar b → a = b := by decide

theorem digitChar_ne_zero10 : ∀ d < 10, 1 ≤ d → Nat.digitChar d ≠ '0' := by
  decide

theorem decRepr_head_ne_zero :
    ∀ n, 1 ≤ n → ∀ c cs, decRepr n = c :: cs → c ≠ '0' := by
  intro n
  induction n using Nat.strong_induction_on with
  | _ n ih =>
    intro hn c cs hrep
    by_cases h : n < 10
    · rw [decRepr_lt10 h] at hrep
      have : c = Nat.digitChar n := by simp at hrep; exact hrep.1.symm
      subst this
      exact digitChar_ne_zero10 n h hn
    · rw [decRepr_ge10 (by omega)] at hrep
      have hdiv : n / 10 < n := Nat.div_lt_self (by omega) (by omega)
      have hdiv1 : 1 ≤ n / 10 := by
        have : 10 ≤ n := by omega
        exact Nat.one_le_div_iff (by omega) |>.mpr this
      obtain ⟨c', cs', hc'⟩ : ∃ c' cs', decRepr (n / 10) = c' :: cs' := by
        cases hd : decRepr (n / 10) with
        | nil => exact absurd hd (decRepr_ne_nil _)
        | cons a b => exact ⟨a, b, rfl⟩
      rw [hc'] at hrep
      simp only [List.cons_append, List.cons.injEq] at hrep
      exact hrep.1 ▸ ih (n / 10) hdiv hdiv1 c' cs' hc'

theorem decRepr_length_mono : ∀ n m, m ≤ n →
    (decRepr m).length ≤ (decRepr n).length := by
  intro n
  induction n using Nat.strong_induction_on with
  | _ n ih =>
    intro m hmn
    by_cases hn : n < 10
    · rw [decRepr_lt10 hn, decRepr_lt10 (show m < 10 by omega)]
      simp
    · by_cases hm : m < 10
      · rw [decRepr_lt10 hm]
        have := decRepr_length_pos n
        simpa using this
      · rw [decRepr_ge10 (show 10 ≤ m by omega),
          decRepr_ge10 (show 10 ≤ n by omega)]
        simp only [List.length_append, List.length_cons, List.length_nil]
        have hdiv : n / 10 < n := Nat.div_lt_self (by omega) (by omega)
        have : m / 10 ≤ n / 10 := Nat.div_le_div_right hmn
        have := ih (n / 10) hdiv (m / 10) this
        omega

theorem decRepr_inj : ∀ n m, decRepr m = decRepr n → m = n := by
  intro n
  induction n using Nat.strong_induction_on with
  | _ n ih =>
    intro m heq
    by_cases hn : n < 10 <;> by_cases hm : m < 10
    · rw [decRepr_lt10 hm, decRepr_lt10 hn] at heq
      simp only [List.cons.injEq, and_true] at heq
      exact digitChar_inj10 m hm n hn heq
    · exfalso
      rw [decRepr_lt10 hn, decRepr_ge10 (show 10 ≤ m by omega)] at heq
      have h1 := decRepr_length_pos (m / 10)
      have : (decRepr (m / 10)).length + 1 = 1 := by
        have := congrArg List.length heq
        simpa using this
      omega
    · exfalso
      rw [decRepr_lt10 hm, decRepr_ge10 (show 10 ≤ n by omega)] at heq
      have h1 := decRepr_length_pos (n / 10)
      have : (decRepr (n / 10)).length + 1 = 1 := by
        have := congrArg List.length heq
        simpa using this.symm
      omega
    · rw [decRepr_ge10 (show 10 ≤ m by omega), decRepr_ge10 (show 10 ≤ n by omega)] at heq
      have hsplit := List.append_inj' heq (by simp)
      have hdivlt : n / 10 < n := Nat.div_lt_self (by omega) (by omega)
      have hdiv : m / 10 = n / 10 := ih (n / 10) hdivlt (m / 10) hsplit.1
      have hmod : m % 10 = n % 10 := by
        have := hsplit.2
        simp only [List.cons.injEq, and_true] at this
        exact digitChar_inj10 (m % 10) (Nat.mod_lt _ (by omega)) (n % 10)
          (Nat.mod_lt _ (by omega)) this
      omega

/-! ### Facts about padding -/

theorem padNum_length (L n : Nat) :
    (padNum L n).length = max L (decRepr n).length := by
  simp only [padNum, padStart, List.length_append, List.length_replicate]
  omega

theorem drop_replicate_append (k : Nat) (c : Char) (s : List Char) :
    (List.replicate k c ++ s).drop k = s := by
  induction k with
  | zero => simp
  | succ k ih => simp [List.replicate_succ, ih]

theorem padNum_ne_of_lt {m n : Nat} (L : Nat)
    (hlt : (decRepr m).length < (decRepr n).length) : padNum L m ≠ padNum L n := by
  intro heq
  have hlen := congrArg List.length heq
  rw [padNum_length, padNum_length] at hlen
  have hLn : (decRepr n).length ≤ L := by omega
  have hdrop := congrArg (List.drop (L - (decRepr n).length)) heq
  have hL1 : L - (decRepr n).length ≤ (List.replicate (L - (decRepr m).length) '0').length := by
    simp only [List.length_replicate]
    omega
  rw [show padNum L m = List.replicate (L - (decRepr m).length) '0' ++ decRepr m from rfl,
    show padNum L n = List.replicate (L - (decRepr n).length) '0' ++ decRepr n from rfl,
    List.drop_append_of_le_length hL1, List.drop_replicate,
    drop_replicate_append] at hdrop
  have hgap : 1 ≤ (L - (decRepr m).length) - (L - (decRepr n).length) := by omega
  obtain ⟨k, hk⟩ : ∃ k, (L - (decRepr m).length) - (L - (decRepr n).length) = k + 1 :=
    ⟨_, (Nat.succ_pred_eq_of_pos hgap).symm⟩
  rw [hk] at hdrop
  have hn1 : 1 ≤ n := by
    by_contra h
    have : n = 0 := by omega
    subst this
    have : (decRepr 0).length = 1 := by decide
    have := decRepr_length_pos m
    omega
  exact decRepr_head_ne_zero n hn1 '0' _ hdrop.symm rfl

theorem padNum_inj {L m n : Nat} (heq : padNum L m = padNum L n) : m = n := by
  rcases Nat.lt_trichotomy (decRepr m).length (decRepr n).length with h | h | h
  · exact absurd heq (padNum_ne_of_lt L h)
  · have := List.append_inj'
      (show List.replicate (L - (decRepr m).length) '0' ++ decRepr m =
        List.replicate (L - (decRepr n).length) '0' ++ decRepr n from heq) h
    exact decRepr_inj n m this.2
  · exact absurd heq.symm (padNum_ne_of_lt L h)

/-! ### Run structure of a pattern and injectivity of rendering -/

theorem replaceRunsAux_length (n : Nat) : ∀ (p : List Char) (r : Nat),
    (replaceRunsAux p n r).length =
      (p.filter (fun c => c != '#')).length +
        ((runLens p r).map (fun L => max L (decRepr n).length)).sum := by
  intro p
  induction p with
  | nil =>
    intro r
    by_cases hr : r = 0 <;> simp [replaceRunsAux, runLens, hr, padNum_length]
  | cons c rest ih =>
    intro r
    by_cases hc : c = '#'
    · simp [replaceRunsAux, runLens, hc, ih]
    · by_cases hr : r = 0 <;>
        simp [replaceRunsAux, runLens, hc, hr, ih, padNum_length] <;> omega

theorem sum_map_eq_of_pointwise {l : List Nat} {f g : Nat → Nat}
    (hle : ∀ x ∈ l, f x ≤ g x) (hsum : (l.map f).sum = (l.map g).sum) :
    ∀ x ∈ l, f x = g x := by
  induction l with
  | nil => intro x hx; simp at hx
  | cons a t ih =>
    have hat : f a ≤ g a := hle a (by simp)
    have hts : (t.map f).sum ≤ (t.map g).sum :=
      List.sum_le_sum (fun x hx => hle x (by simp [hx]))
    simp only [List.map_cons, List.sum_cons] at hsum
    have ha : f a = g a := by omega
    have ht : (t.map f).sum = (t.map g).sum := by omega
    intro x hx
    rcases List.mem_cons.mp hx with h | h
    · exact h ▸ ha
    · exact ih (fun y hy => hle y (by simp [hy])) ht x h

theorem replaceRunsAux_inj (m n : Nat) : ∀ (p : List Char) (r : Nat),
    (1 ≤ r ∨ '#' ∈ p) →
    (∀ L ∈ runLens p r, max L (decRepr m).length = max L (decRepr n).length) →
    replaceRunsAux p m r = replaceRunsAux p n r → m = n := by
  intro p
  induction p with
  | nil =>
    intro r hro _ heq
    have hr : 1 ≤ r := by
      rcases hro with h | h
      · exact h
      · simp at h
    have hr0 : ¬ r = 0 := by omega
    simp only [replaceRunsAux, hr0, if_false] at heq
    exact padNum_inj heq
  | cons c rest ih =>
    intro r hro hmax heq
    by_cases hc : c = '#'
    · subst hc
      simp only [replaceRunsAux, if_pos rfl] at heq
      refine ih (r + 1) (Or.inl (by omega)) ?_ heq
      intro L hL
      exact hmax L (by simpa [runLens] using hL)
    · by_cases hr : r = 0
      · subst hr
        simp only [replaceRunsAux, hc, if_false, if_pos, List.nil_append,
          List.cons.injEq, true_and, reduceIte] at heq
        have hmem : '#' ∈ rest := by
          rcases hro with h | h
          · omega
          · rcases List.mem_cons.mp h with h' | h'
            · exact absurd h'.symm hc
            · exact h'
        refine ih 0 (Or.inr hmem) ?_ heq
        intro L hL
        exact hmax L (by simpa [runLens, hc] using hL)
      · simp only [replaceRunsAux, hc, if_false, hr] at heq
        have hrmem : r ∈ runLens (c :: rest) r := by
          simp [runLens, hc, hr]
        have hrlen : (padNum r m).length = (padNum r n).length := by
          rw [padNum_length, padNum_length]
          exact hmax r hrmem
        exact padNum_inj (List.append_inj heq hrlen).1

theorem replaceRuns_inj_of_le {p : List Char} {m n : Nat} (hmem : '#' ∈ p)
    (hmn : m ≤ n) (heq : replaceRuns p m = replaceRuns p n) : m = n := by
  have hd : (decRepr m).length ≤ (decRepr n).length := decRepr_length_mono n m hmn
  have hlen := congrArg List.length heq
  rw [show replaceRuns p m = replaceRunsAux p m 0 from rfl,
    show replaceRuns p n = replaceRunsAux p n 0 from rfl,
    replaceRunsAux_length, replaceRunsAux_length] at hlen
  have hsum : ((runLens p 0).map (fun L => max L (decRepr m).length)).sum =
      ((runLens p 0).map (fun L => max L (decRepr n).length)).sum := by omega
  have hpt := sum_map_eq_of_pointwise
    (fun L _ => max_le_max (Nat.le_refl L) hd) hsum
  exact replaceRunsAux_inj m n p 0 (Or.inr hmem) hpt heq

/-- If the pattern contains at least one placeholder character, the rendering
of `generateAssetId` is injective in the counter value. -/
theorem replaceRuns_inj {p : List Char} {m n : Nat} (hmem : '#' ∈ p)
    (heq : replaceRuns p m = replaceRuns p n) : m = n := by
  rcases Nat.le_total m n with h | h
  · exact replaceRuns_inj_of_le hmem h heq
  · exact (replaceRuns_inj_of_le hmem h heq.symm).symm

/-! ### Decomposing the rendering over literal and run segments -/

theorem replaceRunsAux_lit {a : List Char} (ha : '#' ∉ a) (b : List Char) (n : Nat) :
    replaceRunsAux (a ++ b) n 0 = a ++ replaceRunsAux b n 0 := by
  induction a with
  | nil => simp
  | cons c rest ih =>
    have hc : ¬ c = '#' := fun h => ha (by simp [h])
    have hrest : '#' ∉ rest := fun h => ha (by simp [h])
    simp [replaceRunsAux, hc, ih hrest]

theorem replaceRuns_no_hash {p : List Char} (hp : '#' ∉ p) (n : Nat) :
    replaceRuns p n = p := by
  have := replaceRunsAux_lit hp [] n
  simpa [replaceRuns, replaceRunsAux] using this

theorem replaceRunsAux_hash (rest : List Char) (n r : Nat) :
    replaceRunsAux ('#' :: rest) n r = replaceRunsAux rest n (r + 1) := by
  simp [replaceRunsAux]

theorem replaceRunsAux_run (L : Nat) (b : List Char) (n r : Nat) :
    replaceRunsAux (List.replicate L '#' ++ b) n r = replaceRunsAux b n (r + L) := by
  induction L generalizing r with
  | zero => simp
  | succ L ih =>
    rw [List.replicate_succ, List.cons_append, replaceRunsAux_hash, ih (r + 1)]
    congr 1
    omega

theorem replaceRunsAux_flush {b : List Char} (hb : headNotHash b) (n r : Nat)
    (hr : 1 ≤ r) :
    replaceRunsAux b n r = padNum r n ++ replaceRunsAux b n 0 := by
  have hr0 : ¬ r = 0 := by omega
  cases b with
  | nil => simp [replaceRunsAux, hr0]
  | cons c cs =>
    have hc : ¬ c = '#' := hb c cs rfl
    simp [replaceRunsAux, hc, hr0]

theorem replaceRuns_segment {a : List Char} (ha : '#' ∉ a) {L : Nat} (hL : 1 ≤ L)
    {b : List Char} (hb : headNotHash b) (n : Nat) :
    replaceRuns (a ++ List.replicate L '#' ++ b) n =
      a ++ padNum L n ++ replaceRuns b n := by
  show replaceRunsAux (a ++ List.replicate L '#' ++ b) n 0 = _
  rw [List.append_assoc, replaceRunsAux_lit ha, replaceRunsAux_run,
    replaceRunsAux_flush hb n (0 + L) (by omega), Nat.zero_add, List.append_assoc]
  rfl

theorem headNotHash_of_not_mem {b : List Char} (hb : '#' ∉ b) : headNotHash b :=
  fun c _ h => fun hc => hb (by simp [h, hc])

/-- Single placeholder run: the rendering is the literal parts around the
zero-padded counter. -/
theorem replaceRuns_single {a b : List Char} (ha : '#' ∉ a) (hb : '#' ∉ b)
    {L : Nat} (hL : 1 ≤ L) (n : Nat) :
    replaceRuns (a ++ List.replicate L '#' ++ b) n = a ++ padNum L n ++ b := by
  rw [replaceRuns_segment ha hL (headNotHash_of_not_mem hb) n,
    replaceRuns_no_hash hb]

/-! ### Generic facts about the association-list store -/

theorem findById_id {α : Type} (getId : α → Nat) {l : List α} {i : Nat} {a : α}
    (h : findById getId l i = some a) : getId a = i := by
  have := List.find?_some h
  simpa using this

theorem findById_mem {α : Type} (getId : α → Nat) {l : List α} {i : Nat} {a : α}
    (h : findById getId l i = some a) : a ∈ l :=
  List.mem_of_find?_eq_some h

theorem find?_replace {α : Type} (getId : α → Nat) (v : α) :
    ∀ (l : List α) (old : α), l.find? (fun x => getId x == getId v) = some old →
    (l.map (fun x => if getId x == getId v then v else x)).find?
      (fun x => getId x == getId v) = some v := by
  intro l
  induction l with
  | nil => intro old h; simp at h
  | cons x t ih =>
    intro old h
    by_cases hx : getId x = getId v
    · simp [List.find?_cons, hx]
    · have hfx : (getId x == getId v) = false := by simp [hx]
      rw [List.find?_cons_of_neg _ (by simp [hx])] at h
      simp only [List.map_cons, hfx, Bool.false_eq_true, if_false]
      rw [List.find?_cons_of_neg _ (by simp [hx])]
      exact ih old h

theorem findById_setById_same {α : Type} (getId : α → Nat) {l : List α} (v : α)
    {old : α} (h : findById getId l (getId v) = some old) :
    findById getId (setById getId l v) (getId v) = some v := by
  have hfind : l.find? (fun x => getId x == getId v) = some old := h
  have hpa := List.find?_some hfind
  have hany : l.any (fun x => getId x == getId v) = true :=
    List.any_eq_true.mpr ⟨old, List.mem_of_find?_eq_some hfind, hpa⟩
  unfold findById setById
  rw [if_pos hany]
  exact find?_replace getId v l old hfind

theorem setById_append_of_fresh {α : Type} (getId : α → Nat) {l : List α} (v : α)
    (h : ∀ x ∈ l, getId x ≠ getId v) : setById getId l v = l ++ [v] := by
  unfold setById
  have : l.any (fun x => getId x == getId v) = false := by
    rw [List.any_eq_false]
    intro x hx
    simp [h x hx]
  simp [this]

theorem mem_setById {α : Type} (getId : α → Nat) {l : List α} {v x : α}
    (h : x ∈ setById getId l v) : x ∈ l ∨ x = v := by
  unfold setById at h
  split at h
  · obtain ⟨y, hy, hxy⟩ := List.mem_map.mp h
    by_cases hid : getId y = getId v
    · right
      rw [← hxy]
      simp [hid]
    · left
      rw [← hxy]
      simpa [hid] using hy
  · rcases List.mem_append.mp h with h' | h'
    · exact Or.inl h'
    · simp at h'
      exact Or.inr h'

/-! ### Frame lemmas for the storage operations -/

theorem generateAssetId_frame {s s' : Storage} {cid : Nat} {a : List Char}
    (h : generateAssetId s cid = some (a, s')) :
    s'.departments = s.departments ∧ s'.userDepartments = s.userDepartments ∧
    s'.inventoryItems = s.inventoryItems ∧ s'.activityLogs = s.activityLogs ∧
    s'.inventoryItemIdCounter = s.inventoryItemIdCounter ∧
    s'.activityLogIdCounter = s.activityLogIdCounter := by
  unfold generateAssetId at h
  cases hc : getCompany s cid with
  | none => rw [hc] at h; simp at h
  | some c =>
    rw [hc] at h
    simp only [Option.some.injEq, Prod.mk.injEq] at h
    rw [← h.2]
    exact ⟨rfl, rfl, rfl, rfl, rfl, rfl⟩

theorem updateDepartment_frame {s s' : Storage} {i : Nat} {p : DepartmentPatch}
    {d : Department} (h : updateDepartment s i p = some (d, s')) :
    s'.companies = s.companies ∧ s'.userDepartments = s.userDepartments ∧
    s'.inventoryItems = s.inventoryItems ∧ s'.activityLogs = s.activityLogs ∧
    s'.inventoryItemIdCounter = s.inventoryItemIdCounter ∧
    s'.activityLogIdCounter = s.activityLogIdCounter := by
  unfold updateDepartment at h
  cases hd : getDepartment s i with
  | none => rw [hd] at h; simp at h
  | some dep =>
    rw [hd] at h
    simp only [Option.some.injEq, Prod.mk.injEq] at h
    rw [← h.2]
    exact ⟨rfl, rfl, rfl, rfl, rfl, rfl⟩

theorem createInventoryItem_log_frame (s : Storage) (d : InsertInventoryItem)
    (now : Nat) :
    (createInventoryItem s d now).2.activityLogs = s.activityLogs ∧
    (createInventoryItem s d now).2.activityLogIdCounter = s.activityLogIdCounter ∧
    (createInventoryItem s d now).2.userDepartments = s.userDepartments := by
  unfold createInventoryItem
  simp only []
  split
  · exact ⟨rfl, rfl, rfl⟩
  · rename_i assetId s1 hg
    have hf := generateAssetId_frame hg
    split
    · rename_i dep hdep
      split
      · rename_i d' s3 hup
        have hf2 := updateDepartment_frame hup
        refine ⟨?_, ?_, ?_⟩
        · rw [hf2.2.2.2.1]; exact hf.2.2.2.1
        · rw [hf2.2.2.2.2.2]; exact hf.2.2.2.2.2
        · rw [hf2.2.1]; exact hf.2.1
      · exact ⟨hf.2.2.2.1, hf.2.2.2.2.2, hf.2.1⟩
    · exact ⟨hf.2.2.2.1, hf.2.2.2.2.2, hf.2.1⟩

theorem updateInventoryItem_frame {s s' : Storage} {i : Nat} {p : ItemPatch}
    {now : Nat} {item' : InventoryItem}
    (h : updateInventoryItem s i p now = some (item', s')) :
    s'.companies = s.companies ∧ s'.departments = s.departments ∧
    s'.userDepartments = s.userDepartments ∧
    s'.activityLogs = s.activityLogs ∧
    s'.inventoryItemIdCounter = s.inventoryItemIdCounter ∧
    s'.activityLogIdCounter = s.activityLogIdCounter := by
  unfold updateInventoryItem at h
  cases hi : getInventoryItem s i with
  | none => rw [hi] at h; simp at h
  | some item =>
    rw [hi] at h
    simp only [Option.some.injEq, Prod.mk.injEq] at h
    rw [← h.2]
    exact ⟨rfl, rfl, rfl, rfl, rfl, rfl⟩

theorem deleteInventoryItem_frame {s s' : Storage} {i : Nat}
    (h : deleteInventoryItem s i = some s') :
    s'.companies = s.companies ∧ s'.userDepartments = s.userDepartments ∧
    s'.activityLogs = s.activityLogs ∧
    s'.inventoryItemIdCounter = s.inventoryItemIdCounter ∧
    s'.activityLogIdCounter = s.activityLogIdCounter := by
  unfold deleteInventoryItem at h
  simp only [] at h
  split at h
  · simp at h
  · rename_i item hi
    simp only [Option.some.injEq] at h
    split at h
    · rename_i dep hdep
      split at h
      · rename_i d' s1 hup
        have hf := updateDepartment_frame hup
        rw [← h]
        exact ⟨hf.1, hf.2.1, hf.2.2.2.1, hf.2.2.2.2.1, hf.2.2.2.2.2⟩
      · rw [← h]
        exact ⟨rfl, rfl, rfl, rfl, rfl⟩
    · rw [← h]
      exact ⟨rfl, rfl, rfl, rfl, rfl⟩

/-- If the next log id is fresh, `createActivityLog` appends exactly one row. -/
theorem createActivityLog_append {s : Storage} (ld : InsertActivityLog) (now : Nat)
    (hfresh : freshLogId s) :
    (createActivityLog s ld now).2.activityLogs =
      s.activityLogs ++ [(createActivityLog s ld now).1] := by
  unfold createActivityLog
  exact setById_append_of_fresh ActivityLog.id _ (fun x hx => hfresh x hx)

/-! ### Claim theorems -/

/-! ### Audit-trail lemmas for the three mutating routes -/

theorem postInventory_success {s : Storage} {u : AuthUser}
    {body : InsertInventoryItem} {now : Nat} {item : InventoryItem} {s₂ : Storage}
    (hfresh : freshLogId s)
    (h : postInventory s u body now = (RouteResp.created item, s₂)) :
    ∃ log, s₂.activityLogs = s.activityLogs ++ [log] ∧
      log.action = "added".data ∧ log.itemId = item.id ∧
      log.assetId = item.assetId ∧ log.itemName = item.name ∧
      log.departmentName =
        orDefault ((getDepartment s₂ item.departmentId).map Department.name)
          "Unknown".data ∧
      log.userId = u.id ∧ log.userName = u.name ∧ log.companyId = u.companyId := by
  unfold postInventory at h
  by_cases h0 : body.departmentId = 0
  · rw [if_pos h0] at h
    simp at h
  · rw [if_neg h0] at h
    by_cases h1 : u.role ≠ "admin".data ∧ ¬ hasDeptAccess s u.id body.departmentId
    · rw [if_pos h1] at h
      simp at h
    · rw [if_neg h1] at h
      simp only [] at h
      split at h
      · simp at h
      · rename_i item0 s1 hcr
        simp only [createActivityLog, Prod.mk.injEq, RouteResp.created.injEq] at h
        obtain ⟨hitem, hs2⟩ := h
        subst hitem
        subst hs2
        have hframe := createInventoryItem_log_frame s
          { body with companyId := u.companyId, createdBy := u.id, updatedBy := u.id } now
        rw [hcr] at hframe
        have hlogs : s1.activityLogs = s.activityLogs := hframe.1
        have hctr : s1.activityLogIdCounter = s.activityLogIdCounter := hframe.2.1
        refine ⟨routeLog "added".data item0.id item0.assetId item0.name
          (orDefault ((getDepartment s1 item0.departmentId).map Department.name) "Unknown".data)
          u s1.activityLogIdCounter now, ?_, rfl, rfl, rfl, rfl, rfl, rfl, rfl, rfl⟩
        show setById ActivityLog.id s1.activityLogs _ = _
        rw [setById_append_of_fresh ActivityLog.id _ ?_, hlogs]
        · rfl
        intro x hx
        rw [hlogs] at hx
        show x.id ≠ s1.activityLogIdCounter
        rw [hctr]
        exact hfresh x hx

theorem putInventory_success {s : Storage} {u : AuthUser} {itemId : Nat}
    {body : ItemPatch} {now : Nat} {item' : InventoryItem} {s₂ : Storage}
    (hfresh : freshLogId s)
    (h : putInventory s u itemId body now = (RouteResp.okItem item', s₂)) :
    ∃ log, s₂.activityLogs = s.activityLogs ++ [log] ∧
      log.action = "updated".data ∧ log.itemId = item'.id ∧
      log.assetId = item'.assetId ∧ log.itemName = item'.name ∧
      log.departmentName =
        orDefault ((getDepartment s₂ item'.departmentId).map Department.name)
          "Unknown".data ∧
      log.userId = u.id ∧ log.userName = u.name ∧ log.companyId = u.companyId := by
  unfold putInventory at h
  split at h
  · simp at h
  · rename_i existing hex
    by_cases h0 : existing.companyId ≠ u.companyId
    · rw [if_pos h0] at h
      simp at h
    · rw [if_neg h0] at h
      by_cases h1 : u.role ≠ "admin".data ∧ ¬ hasDeptAccess s u.id existing.departmentId
      · rw [if_pos h1] at h
        simp at h
      · rw [if_neg h1] at h
        split at h
        · simp at h
        · rename_i item0 s1 hup
          simp only [createActivityLog, Prod.mk.injEq, RouteResp.okItem.injEq] at h
          obtain ⟨hitem, hs2⟩ := h
          subst hitem
          subst hs2
          have hframe := updateInventoryItem_frame hup
          have hlogs : s1.activityLogs = s.activityLogs := hframe.2.2.2.1
          have hctr : s1.activityLogIdCounter = s.activityLogIdCounter := hframe.2.2.2.2.2
          refine ⟨routeLog "updated".data item0.id item0.assetId item0.name
            (orDefault ((getDepartment s1 item0.departmentId).map Department.name) "Unknown".data)
            u s1.activityLogIdCounter now, ?_, rfl, rfl, rfl, rfl, rfl, rfl, rfl, rfl⟩
          show setById ActivityLog.id s1.activityLogs _ = _
          rw [setById_append_of_fresh ActivityLog.id _ ?_, hlogs]
          · rfl
          intro x hx
          rw [hlogs] at hx
          show x.id ≠ s1.activityLogIdCounter
          rw [hctr]
          exact hfresh x hx

theorem deleteInventory_success {s : Storage} {u : AuthUser} {itemId : Nat}
    {now : Nat} {existing : InventoryItem} {s₂ : Storage}
    (hfresh : freshLogId s) (hex : getInventoryItem s itemId = some existing)
    (h : deleteInventory s u itemId now = (RouteResp.okDeleted, s₂)) :
    ∃ log, s₂.activityLogs = s.activityLogs ++ [log] ∧
      log.action = "removed".data ∧ log.itemId = itemId ∧
      log.assetId = existing.assetId ∧ log.itemName = existing.name ∧
      log.departmentName =
        orDefault ((getDepartment s existing.departmentId).map Department.name)
          "Unknown".data ∧
      log.userId = u.id ∧ log.userName = u.name ∧ log.companyId = u.companyId := by
  unfold deleteInventory at h
  split at h
  · rename_i hnone
    rw [hex] at hnone
    simp at hnone
  · rename_i existingItem hex2
    rw [hex] at hex2
    have hexx : existingItem = existing := by
      injection hex2.symm
    subst hexx
    by_cases h0 : existingItem.companyId ≠ u.companyId
    · rw [if_pos h0] at h
      simp at h
    · rw [if_neg h0] at h
      by_cases h1 : u.role ≠ "admin".data
      · rw [if_pos h1] at h
        simp at h
      · rw [if_neg h1] at h
        simp only [] at h
        split at h
        · simp at h
        · rename_i s1 hdel
          simp only [createActivityLog, Prod.mk.injEq] at h
          obtain ⟨-, hs2⟩ := h
          subst hs2
          have hframe := deleteInventoryItem_frame hdel
          have hlogs : s1.activityLogs = s.activityLogs := hframe.2.2.1
          have hctr : s1.activityLogIdCounter = s.activityLogIdCounter := hframe.2.2.2.2
          refine ⟨routeLog "removed".data itemId existingItem.assetId existingItem.name
            (orDefault ((getDepartment s existingItem.departmentId).map Department.name) "Unknown".data)
            u s1.activityLogIdCounter now, ?_, rfl, rfl, rfl, rfl, rfl, rfl, rfl, rfl⟩
          show setById ActivityLog.id s1.activityLogs _ = _
          rw [setById_append_of_fresh ActivityLog.id _ ?_, hlogs]
          · rfl
          intro x hx
          rw [hlogs] at hx
          show x.id ≠ s1.activityLogIdCounter
          rw [hctr]
          exact hfresh x hx

theorem postInventory_append_only (s : Storage) (u : AuthUser)
    (body : InsertInventoryItem) (now : Nat) (hfresh : freshLogId s) :
    ∃ t, (postInventory s u body now).2.activityLogs = s.activityLogs ++ t := by
  unfold postInventory
  by_cases h0 : body.departmentId = 0
  · rw [if_pos h0]
    exact ⟨[], by simp⟩
  · rw [if_neg h0]
    by_cases h1 : u.role ≠ "admin".data ∧ ¬ hasDeptAccess s u.id body.departmentId
    · rw [if_pos h1]
      exact ⟨[], by simp⟩
    · rw [if_neg h1]
      simp only []
      split
      · rename_i s1 hcr
        have hframe := createInventoryItem_log_frame s
          { body with companyId := u.companyId, createdBy := u.id, updatedBy := u.id } now
        rw [hcr] at hframe
        exact ⟨[], by simpa using hframe.1⟩
      · rename_i item0 s1 hcr
        have hframe := createInventoryItem_log_frame s
          { body with companyId := u.companyId, createdBy := u.id, updatedBy := u.id } now
        rw [hcr] at hframe
        have hlogs : s1.activityLogs = s.activityLogs := hframe.1
        have hctr : s1.activityLogIdCounter = s.activityLogIdCounter := hframe.2.1
        refine ⟨[routeLog "added".data item0.id item0.assetId item0.name
          (orDefault ((getDepartment s1 item0.departmentId).map Department.name) "Unknown".data)
          u s1.activityLogIdCounter now], ?_⟩
        show setById ActivityLog.id s1.activityLogs _ = _
        rw [setById_append_of_fresh ActivityLog.id _ ?_, hlogs]
        · rfl
        intro x hx
        rw [hlogs] at hx
        show x.id ≠ s1.activityLogIdCounter
        rw [hctr]
        exact hfresh x hx

theorem putInventory_append_only (s : Storage) (u : AuthUser) (itemId : Nat)
    (body : ItemPatch) (now : Nat) (hfresh : freshLogId s) :
    ∃ t, (putInventory s u itemId body now).2.activityLogs = s.activityLogs ++ t := by
  unfold putInventory
  split
  · exact ⟨[], by simp⟩
  · rename_i existing hex
    by_cases h0 : existing.companyId ≠ u.companyId
    · rw [if_pos h0]
      exact ⟨[], by simp⟩
    · rw [if_neg h0]
      by_cases h1 : u.role ≠ "admin".data ∧ ¬ hasDeptAccess s u.id existing.departmentId
      · rw [if_pos h1]
        exact ⟨[], by simp⟩
      · rw [if_neg h1]
        split
        · exact ⟨[], by simp⟩
        · rename_i item0 s1 hup
          have hframe := updateInventoryItem_frame hup
          have hlogs : s1.activityLogs = s.activityLogs := hframe.2.2.2.1
          have hctr : s1.activityLogIdCounter = s.activityLogIdCounter := hframe.2.2.2.2.2
          refine ⟨[routeLog "updated".data item0.id item0.assetId item0.name
            (orDefault ((getDepartment s1 item0.departmentId).map Department.name) "Unknown".data)
            u s1.activityLogIdCounter now], ?_⟩
          show setById ActivityLog.id s1.activityLogs _ = _
          rw [setById_append_of_fresh ActivityLog.id _ ?_, hlogs]
          · rfl
          intro x hx
          rw [hlogs] at hx
          show x.id ≠ s1.activityLogIdCounter
          rw [hctr]
          exact hfresh x hx

theorem deleteInventory_append_only (s : Storage) (u : AuthUser) (itemId : Nat)
    (now : Nat) (hfresh : freshLogId s) :
    ∃ t, (deleteInventory s u itemId now).2.activityLogs = s.activityLogs ++ t := by
  unfold deleteInventory
  split
  · exact ⟨[], by simp⟩
  · rename_i existing hex
    by_cases h0 : existing.companyId ≠ u.companyId
    · rw [if_pos h0]
      exact ⟨[], by simp⟩
    · rw [if_neg h0]
      by_cases h1 : u.role ≠ "admin".data
      · rw [if_pos h1]
        exact ⟨[], by simp⟩
      · rw [if_neg h1]
        simp only []
        split
        · exact ⟨[], by simp⟩
        · rename_i s1 hdel
          have hframe := deleteInventoryItem_frame hdel
          have hlogs : s1.activityLogs = s.activityLogs := hframe.2.2.1
          have hctr : s1.activityLogIdCounter = s.activityLogIdCounter := hframe.2.2.2.2
          refine ⟨[routeLog "removed".data itemId existing.assetId existing.name
            (orDefault ((getDepartment s existing.departmentId).map Department.name) "Unknown".data)
            u s1.activityLogIdCounter now], ?_⟩
          show setById ActivityLog.id s1.activityLogs _ = _
          rw [setById_append_of_fresh ActivityLog.id _ ?_, hlogs]
          · rfl
          intro x hx
          rw [hlogs] at hx
          show x.id ≠ s1.activityLogIdCounter
          rw [hctr]
          exact hfresh x hx

/-! ### Sequential creation and asset-id uniqueness -/

theorem updateDepartment_of_found {s : Storage} {i : Nat} {d : Department}
    (h : getDepartment s i = some d) (p : DepartmentPatch) :
    updateDepartment s i p =
      some (applyDeptPatch d p,
        { s with departments := setById Department.id s.departments (applyDeptPatch d p) }) := by
  unfold updateDepartment
  rw [h]

theorem updateDepartment_of_found2 {s : Storage} {i j : Nat} {d : Department}
    (h : getDepartment s i = some d) (hj : j = i) (p : DepartmentPatch) :
    updateDepartment s j p =
      some (applyDeptPatch d p,
        { s with departments := setById Department.id s.departments (applyDeptPatch d p) }) := by
  subst hj
  exact updateDepartment_of_found h p

theorem generateAssetId_spec (s : Storage) (cid : Nat) (c : Company)
    (h : getCompany s cid = some c) :
    ∃ s', generateAssetId s cid =
        some (replaceRuns c.assetIdPattern c.currentAssetId, s') ∧
      s'.companies = setById Company.id s.companies
        ({ c with currentAssetId := c.currentAssetId + 1 }) ∧
      getCompany s' cid = some { c with currentAssetId := c.currentAssetId + 1 } ∧
      s'.departments = s.departments ∧
      s'.userDepartments = s.userDepartments ∧
      s'.inventoryItems = s.inventoryItems ∧
      s'.activityLogs = s.activityLogs ∧
      s'.inventoryItemIdCounter = s.inventoryItemIdCounter ∧
      s'.activityLogIdCounter = s.activityLogIdCounter := by
  have hcid : c.id = cid := findById_id Company.id h
  unfold generateAssetId
  rw [h]
  refine ⟨_, rfl, rfl, ?_, rfl, rfl, rfl, rfl, rfl, rfl⟩
  show findById Company.id
    (setById Company.id s.companies { c with currentAssetId := c.currentAssetId + 1 }) cid =
      some { c with currentAssetId := c.currentAssetId + 1 }
  have hid : Company.id { c with currentAssetId := c.currentAssetId + 1 } = cid := hcid
  rw [← hid]
  exact findById_setById_same Company.id _ (by rw [hid]; exact h)

theorem createInventoryItem_company {s : Storage} (data : InsertInventoryItem)
    (now : Nat) {c : Company} (hc : getCompany s data.companyId = some c) :
    ∃ item s', createInventoryItem s data now = (some item, s') ∧
      item.assetId = replaceRuns c.assetIdPattern c.currentAssetId ∧
      getCompany s' data.companyId =
        some { c with currentAssetId := c.currentAssetId + 1 } := by
  have hc0 : getCompany { s with inventoryItemIdCounter := s.inventoryItemIdCounter + 1 }
      data.companyId = some c := hc
  obtain ⟨s1, hgen, hcomp, hget, -, -, -, -, -, -⟩ :=
    generateAssetId_spec _ data.companyId c hc0
  unfold createInventoryItem
  simp only []
  rw [hgen]
  simp only []
  split
  · rename_i department hdep
    have hdid : department.id = data.departmentId := findById_id Department.id hdep
    rw [updateDepartment_of_found2 hdep hdid]
    exact ⟨_, _, rfl, rfl, hget⟩
  · exact ⟨_, _, rfl, rfl, hget⟩

theorem createSeq_spec (datas : List InsertInventoryItem) :
    ∀ (s : Storage) (c : Company) (cid : Nat) (now : Nat),
    getCompany s cid = some c → (∀ d ∈ datas, d.companyId = cid) →
    ((createSeq s datas now).1.map InventoryItem.assetId =
      (List.range datas.length).map
        (fun i => replaceRuns c.assetIdPattern (c.currentAssetId + i))) ∧
    getCompany (createSeq s datas now).2 cid =
      some { c with currentAssetId := c.currentAssetId + datas.length } := by
  induction datas with
  | nil =>
    intro s c cid now hc _
    refine ⟨by simp [createSeq], ?_⟩
    show getCompany s cid = _
    simp only [List.length_nil, Nat.add_zero]
    exact hc
  | cons d ds ih =>
    intro s c cid now hc hall
    have hd : d.companyId = cid := hall d (by simp)
    obtain ⟨item, s', hcr, haid, hget⟩ :=
      createInventoryItem_company d now (by rw [hd]; exact hc)
    rw [hd] at hget
    have hall' : ∀ x ∈ ds, x.companyId = cid := fun x hx => hall x (by simp [hx])
    obtain ⟨ihmap, ihfin⟩ :=
      ih s' { c with currentAssetId := c.currentAssetId + 1 } cid now hget hall'
    have hseq : createSeq s (d :: ds) now =
        (item :: (createSeq s' ds now).1, (createSeq s' ds now).2) := by
      show (match createInventoryItem s d now with
        | (some it, t) => (it :: (createSeq t ds now).1, (createSeq t ds now).2)
        | (none, t) => createSeq t ds now) = _
      rw [hcr]
    refine ⟨?_, ?_⟩
    · rw [hseq]
      simp only [List.map_cons, List.length_cons, List.range_succ_eq_map,
        List.map_map]
      rw [haid, ihmap]
      simp only [Nat.add_zero]
      refine congrArg₂ _ rfl ?_
      refine List.map_congr_left ?_
      intro i _
      show replaceRuns c.assetIdPattern (c.currentAssetId + 1 + i) = _
      simp only [Function.comp]
      congr 1
      omega
    · rw [hseq]
      show getCompany (createSeq s' ds now).2 cid = _
      rw [show c.currentAssetId + (d :: ds).length =
        (c.currentAssetId + 1) + ds.length from by simp; omega]
      exact ihfin

/-! ### Precise effect of creation and deletion on the store -/

theorem createInventoryItem_full {s : Storage} (data : InsertInventoryItem)
    (now : Nat) {c : Company} {d : Department}
    (hc : getCompany s data.companyId = some c)
    (hd : getDepartment s data.departmentId = some d) :
    createInventoryItem s data now =
      (some (mkCreated s data now c),
       { companies := setById Company.id s.companies
           { c with currentAssetId := c.currentAssetId + 1 },
         departments := setById Department.id s.departments
           (applyDeptPatch d (incPatch d)),
         userDepartments := s.userDepartments,
         inventoryItems := setById InventoryItem.id s.inventoryItems
           (mkCreated s data now c),
         activityLogs := s.activityLogs,
         inventoryItemIdCounter := s.inventoryItemIdCounter + 1,
         activityLogIdCounter := s.activityLogIdCounter }) := by
  have hc0 : getCompany { s with inventoryItemIdCounter := s.inventoryItemIdCounter + 1 }
      data.companyId = some c := hc
  have hgen : generateAssetId { s with inventoryItemIdCounter := s.inventoryItemIdCounter + 1 } data.companyId = some (replaceRuns c.assetIdPattern c.currentAssetId, { s with inventoryItemIdCounter := s.inventoryItemIdCounter + 1, companies := setById Company.id s.companies { c with currentAssetId := c.currentAssetId + 1 } }) := by
    unfold generateAssetId
    rw [hc0]
  unfold createInventoryItem
  simp only []
  rw [hgen]
  simp only []
  split
  · rename_i department hdep
    have hdep' : getDepartment s data.departmentId = some department := hdep
    rw [hd] at hdep'
    have hdd : department = d := by
      injection hdep' with h
      exact h.symm
    subst hdd
    rw [updateDepartment_of_found2 hdep (findById_id Department.id hdep)]
    rfl
  · rename_i hdep
    have hdep' : getDepartment s data.departmentId = none := hdep
    rw [hd] at hdep'
    simp at hdep'

theorem deleteInventoryItem_full {s : Storage} {i : Nat} {item : InventoryItem}
    {d : Department} (hi : getInventoryItem s i = some item)
    (hd : getDepartment s item.departmentId = some d) :
    deleteInventoryItem s i =
      some { s with
        departments := setById Department.id s.departments
          (applyDeptPatch d (decPatch d)),
        inventoryItems := s.inventoryItems.filter (fun it => it.id != i) } := by
  unfold deleteInventoryItem
  rw [hi]
  simp only []
  rw [hd]
  simp only []
  rw [updateDepartment_of_found2 hd (findById_id Department.id hd)]
  rfl

/-! ### The create/delete round trip on the concrete store -/

theorem s7c_step (k : Nat) :
    createInventoryItem (s7c k) body1 0 = (some (item1 (1 + k)), s7c (k + 1)) := by
  have hc : getCompany (s7c k) 1 = some { com1 with currentAssetId := 1 + k } := by
    simp [getCompany, findById, s7c, com1]
  have hd : getDepartment (s7c k) 1 =
      some { dep1 with assetCount := (k : Int), capacityUsed := 10 * (k : Int) } := by
    simp [getDepartment, findById, s7c, dep1]
  have hany : ((List.range' 1 k).map item1).any
      (fun x => x.id == InventoryItem.id (mkCreated (s7c k) body1 0 { com1 with currentAssetId := 1 + k })) = false := by
    rw [List.any_eq_false]
    intro x hx
    obtain ⟨j, hj, rfl⟩ := List.mem_map.mp hx
    have hmem := List.mem_range'_1.mp hj
    show ¬((item1 j).id == (1 + k)) = true
    simp only [item1, beq_iff_eq]
    omega
  have hitems : setById InventoryItem.id ((List.range' 1 k).map item1)
      (mkCreated (s7c k) body1 0 { com1 with currentAssetId := 1 + k }) =
      (List.range' 1 (k + 1)).map item1 := by
    unfold setById
    rw [hany]
    simp only [Bool.false_eq_true, if_false]
    rw [List.range'_1_concat, List.map_append]
    rfl
  rw [createInventoryItem_full body1 0 hc hd]
  refine congrArg₂ Prod.mk rfl ?_
  unfold s7c
  congr 1

theorem s7d_step (N j : Nat) (h : j < N) :
    deleteInventoryItem (s7d N j) (1 + j) = some (s7d N (j + 1)) := by
  obtain ⟨m, hm⟩ : ∃ m, N - j = m + 1 := ⟨N - j - 1, by omega⟩
  have hrange : List.range' (1 + j) (N - j) = (1 + j) :: List.range' (1 + j + 1) m := by
    rw [hm, List.range'_succ]
  have hitem : getInventoryItem (s7d N j) (1 + j) = some (item1 (1 + j)) := by
    unfold getInventoryItem findById s7d
    rw [hrange]
    simp [item1]
  have hdept : getDepartment (s7d N j) ((item1 (1 + j)).departmentId) =
      some { dep1 with assetCount := ((N - j : Nat) : Int), capacityUsed := 10 * ((N - j : Nat) : Int) } := by
    simp [getDepartment, findById, s7d, dep1, item1]
  have hfilter : ((s7d N j).inventoryItems).filter (fun it => it.id != (1 + j)) =
      (List.range' (1 + (j + 1)) (N - (j + 1))).map item1 := by
    show ((List.range' (1 + j) (N - j)).map item1).filter _ = _
    rw [hrange]
    simp only [List.map_cons, List.filter_cons]
    rw [show ((item1 (1 + j)).id != (1 + j)) = false from by simp [item1]]
    simp only [Bool.false_eq_true, if_false]
    rw [List.filter_eq_self.mpr]
    · rw [show m = N - (j + 1) from by omega]
      rfl
    · intro x hx
      obtain ⟨i, hi, rfl⟩ := List.mem_map.mp hx
      have := List.mem_range'_1.mp hi
      simp [item1]
      omega
  rw [deleteInventoryItem_full hitem hdept]
  refine congrArg some ?_
  unfold s7d
  congr 1
  show [applyDeptPatch _ _] = _
  simp only [applyDeptPatch, decPatch, dep1, Option.getD_some]
  refine congrArg₂ List.cons ?_ rfl
  congr 1 <;> omega

theorem applyOps_append (now : Nat) (s : Storage) (l1 l2 : List InvOp) :
    applyOps now s (l1 ++ l2) = applyOps now (applyOps now s l1) l2 :=
  List.foldl_append _ _ _ _

theorem s7_creates : ∀ k, applyOps 0 s70 (List.replicate k (InvOp.create body1)) = s7c k := by
  intro k
  induction k with
  | zero => decide
  | succ k ih =>
    rw [List.replicate_succ', applyOps_append, ih]
    show (createInventoryItem (s7c k) body1 0).2 = _
    rw [s7c_step]

theorem s7_deletes (N : Nat) : ∀ m j, j + m ≤ N →
    applyOps 0 (s7d N j) ((List.range' (1 + j) m).map (fun i => InvOp.delete i)) =
      s7d N (j + m) := by
  intro m
  induction m with
  | zero => intro j _; rfl
  | succ m ih =>
    intro j hj
    rw [List.range'_succ]
    simp only [List.map_cons]
    show applyOps 0 (applyOp 0 (s7d N j) (InvOp.delete (1 + j))) _ = _
    have hstep : applyOp 0 (s7d N j) (InvOp.delete (1 + j)) = s7d N (j + 1) := by
      show (match deleteInventoryItem (s7d N j) (1 + j) with
        | some s' => s' | none => s7d N j) = _
      rw [s7d_step N j (by omega)]
    rw [hstep, show j + (m + 1) = j + 1 + m from by omega]
    exact ih (j + 1) (by omega)

theorem deptCountersNonneg_same {s s' : Storage} (h : s'.departments = s.departments)
    (hinv : deptCountersNonneg s) : deptCountersNonneg s' := by
  intro d hd
  rw [h] at hd
  exact hinv d hd

theorem createInventoryItem_nonneg (s : Storage) (data : InsertInventoryItem)
    (now : Nat) (hinv : deptCountersNonneg s) :
    deptCountersNonneg (createInventoryItem s data now).2 := by
  unfold createInventoryItem
  simp only []
  split
  · exact deptCountersNonneg_same rfl hinv
  · rename_i assetId s1 hg
    have hf := generateAssetId_frame hg
    have hinv1 : deptCountersNonneg s1 := deptCountersNonneg_same hf.1 hinv
    split
    · rename_i department hdep
      have hdid : department.id = data.departmentId := findById_id Department.id hdep
      have hmem : department ∈ s1.departments := findById_mem Department.id hdep
      rw [updateDepartment_of_found2 hdep hdid]
      intro d hd
      rcases mem_setById Department.id hd with hin | hv
      · exact hinv1 d hin
      · subst hv
        have := hinv1 department hmem
        refine ⟨?_, ?_⟩
        · show (0 : Int) ≤ department.assetCount + 1
          omega
        · show (0 : Int) ≤ department.capacityUsed + 10
          omega
    · exact deptCountersNonneg_same rfl hinv1

theorem deleteInventoryItem_nonneg {s s' : Storage} {i : Nat}
    (h : deleteInventoryItem s i = some s') (hinv : deptCountersNonneg s) :
    deptCountersNonneg s' := by
  unfold deleteInventoryItem at h
  split at h
  · simp at h
  · rename_i item hitem
    simp only [Option.some.injEq] at h
    split at h
    · rename_i department hdep
      have hdid : department.id = item.departmentId := findById_id Department.id hdep
      rw [updateDepartment_of_found2 hdep hdid] at h
      simp only [] at h
      rw [← h]
      intro d hd
      rcases mem_setById Department.id hd with hin | hv
      · exact hinv d hin
      · subst hv
        exact ⟨le_max_left _ _, le_max_left _ _⟩
    · rw [← h]
      exact deptCountersNonneg_same rfl hinv

theorem applyOp_nonneg (now : Nat) (s : Storage) (op : InvOp)
    (hinv : deptCountersNonneg s) : deptCountersNonneg (applyOp now s op) := by
  cases op with
  | create data => exact createInventoryItem_nonneg s data now hinv
  | delete i =>
    show deptCountersNonneg (match deleteInventoryItem s i with
      | some s' => s' | none => s)
    cases hdel : deleteInventoryItem s i with
    | none => exact hinv
    | some s' => exact deleteInventoryItem_nonneg hdel hinv

theorem applyOps_nonneg (now : Nat) (ops : List InvOp) :
    ∀ (s : Storage), deptCountersNonneg s → deptCountersNonneg (applyOps now s ops) := by
  induction ops with
  | nil => intro s hinv; exact hinv
  | cons op rest ih =>
    intro s hinv
    exact ih (applyOp now s op) (applyOp_nonneg now s op hinv)

/-- C7: department counters never go below 0 under any sequence of item
creations and deletions (creation adds 1/10, deletion subtracts clamped at
0), and N creations followed by deletion of those N items on an initially
empty department bring both the item count and the capacity-used metric back
to exactly 0. -/
theorem capacity_nonneg_roundtrip :
    (∀ (s : Storage) (now : Nat) (ops : List InvOp), deptCountersNonneg s →
      deptCountersNonneg (applyOps now s ops)) ∧
    (∀ N : Nat, ∃ d : Department,
      getDepartment (applyOps 0 s70 (List.replicate N (InvOp.create body1) ++
        (List.range N).map (fun i => InvOp.delete (1 + i)))) 1 = some d ∧
      d.assetCount = 0 ∧ d.capacityUsed = 0) := by
  refine ⟨fun s now ops h => applyOps_nonneg now ops s h, fun N => ?_⟩
  rw [applyOps_append, s7_creates N]
  have hdel : (List.range N).map (fun i => InvOp.delete (1 + i)) =
      (List.range' 1 N).map (fun i => InvOp.delete i) := by
    rw [List.range'_eq_map_range, List.map_map]
    rfl
  rw [hdel]
  have hstart : s7c N = s7d N 0 := rfl
  rw [hstart]
  have hrun := s7_deletes N N 0 (by omega)
  rw [hrun]
  refine ⟨{ dep1 with assetCount := ((N - (0 + N) : Nat) : Int), capacityUsed := 10 * ((N - (0 + N) : Nat) : Int) }, ?_, ?_, ?_⟩
  · simp [getDepartment, findById, s7d, dep1]
  · show ((N - (0 + N) : Nat) : Int) = 0
    omega
  · show 10 * ((N - (0 + N) : Nat) : Int) = 0
    omega

/-- C7 witness: the invariant clause applied to a concrete store and a
concrete create/delete sequence. -/
theorem capacity_nonneg_roundtrip_witness :
    deptCountersNonneg (applyOps 5 s50 [InvOp.create body1, InvOp.delete 1]) :=
  capacity_nonneg_roundtrip.1 s50 5 [InvOp.create body1, InvOp.delete 1]
    (by show ∀ d ∈ s50.departments, 0 ≤ d.assetCount ∧ 0 ≤ d.capacityUsed; decide)

/-- C8: every successful item creation, update or deletion appends exactly one
new activity-log row whose action matches the mutation kind (`added`,
`updated`, `removed`) and whose snapshot fields equal the item's state at the
time of that mutation — the deletion row records the item's pre-deletion
values — and each handler only ever appends to the log list, so later
requests never change earlier rows. -/
theorem activityLog_audit :
    (∀ (s : Storage) (u : AuthUser) (body : InsertInventoryItem) (now : Nat)
      (item : InventoryItem) (s₂ : Storage), freshLogId s →
      postInventory s u body now = (RouteResp.created item, s₂) →
      ∃ log, s₂.activityLogs = s.activityLogs ++ [log] ∧
        log.action = "added".data ∧ log.itemId = item.id ∧
        log.assetId = item.assetId ∧ log.itemName = item.name ∧
        log.departmentName =
          orDefault ((getDepartment s₂ item.departmentId).map Department.name)
            "Unknown".data ∧
        log.userId = u.id ∧ log.userName = u.name ∧ log.companyId = u.companyId) ∧
    (∀ (s : Storage) (u : AuthUser) (itemId : Nat) (body : ItemPatch) (now : Nat)
      (item' : InventoryItem) (s₂ : Storage), freshLogId s →
      putInventory s u itemId body now = (RouteResp.okItem item', s₂) →
      ∃ log, s₂.activityLogs = s.activityLogs ++ [log] ∧
        log.action = "updated".data ∧ log.itemId = item'.id ∧
        log.assetId = item'.assetId ∧ log.itemName = item'.name ∧
        log.departmentName =
          orDefault ((getDepartment s₂ item'.departmentId).map Department.name)
            "Unknown".data ∧
        log.userId = u.id ∧ log.userName = u.name ∧ log.companyId = u.companyId) ∧
    (∀ (s : Storage) (u : AuthUser) (itemId : Nat) (now : Nat)
      (existing : InventoryItem) (s₂ : Storage), freshLogId s →
      getInventoryItem s itemId = some existing →
      deleteInventory s u itemId now = (RouteResp.okDeleted, s₂) →
      ∃ log, s₂.activityLogs = s.activityLogs ++ [log] ∧
        log.action = "removed".data ∧ log.itemId = itemId ∧
        log.assetId = existing.assetId ∧ log.itemName = existing.name ∧
        log.departmentName =
          orDefault ((getDepartment s existing.departmentId).map Department.name)
            "Unknown".data ∧
        log.userId = u.id ∧ log.userName = u.name ∧ log.companyId = u.companyId) ∧
    (∀ (s : Storage) (u : AuthUser) (body : InsertInventoryItem) (now : Nat),
      freshLogId s →
      ∃ t, (postInventory s u body now).2.activityLogs = s.activityLogs ++ t) ∧
    (∀ (s : Storage) (u : AuthUser) (itemId : Nat) (body : ItemPatch) (now : Nat),
      freshLogId s →
      ∃ t, (putInventory s u itemId body now).2.activityLogs = s.activityLogs ++ t) ∧
    (∀ (s : Storage) (u : AuthUser) (itemId : Nat) (now : Nat), freshLogId s →
      ∃ t, (deleteInventory s u itemId now).2.activityLogs = s.activityLogs ++ t) :=
  ⟨fun _ _ _ _ _ _ hf h => postInventory_success hf h,
   fun _ _ _ _ _ _ _ hf h => putInventory_success hf h,
   fun _ _ _ _ _ _ hf hex h => deleteInventory_success hf hex h,
   fun s u body now hf => postInventory_append_only s u body now hf,
   fun s u itemId body now hf => putInventory_append_only s u itemId body now hf,
   fun s u itemId now hf => deleteInventory_append_only s u itemId now hf⟩

/-- C8 witness: the creation clause at the concrete one-department store. -/
theorem activityLog_audit_witness :
    ∃ log, (postInventory s70 admin1 body1 0).2.activityLogs =
        s70.activityLogs ++ [log] ∧
      log.action = "added".data ∧
      log.itemId = ({ item1 1 with createdBy := 7, updatedBy := 7 }).id ∧
      log.assetId = ({ item1 1 with createdBy := 7, updatedBy := 7 }).assetId ∧
      log.itemName = ({ item1 1 with createdBy := 7, updatedBy := 7 }).name ∧
      log.departmentName =
        orDefault ((getDepartment (postInventory s70 admin1 body1 0).2
          ({ item1 1 with createdBy := 7, updatedBy := 7 }).departmentId).map
            Department.name) "Unknown".data ∧
      log.userId = admin1.id ∧ log.userName = admin1.name ∧
      log.companyId = admin1.companyId :=
  activityLog_audit.1 s70 admin1 body1 0 { item1 1 with createdBy := 7, updatedBy := 7 }
    (postInventory s70 admin1 body1 0).2
    (by intro l hl; simp [s70] at hl) (by decide)

/-- C4 counterexample: with the placeholder-free pattern `"ITEM"` two
sequential creations in the same tenant receive identical asset ids (and no
counter value appears in them), refuting uniqueness as universally stated. -/
theorem sequential_assetIds_collide_cx :
    ((createInventoryItem s40 body1 0).1.map InventoryItem.assetId =
      some "ITEM".data) ∧
    ((createInventoryItem (createInventoryItem s40 body1 0).2 body1 0).1.map
      InventoryItem.assetId = some "ITEM".data) ∧
    ((createInventoryItem s40 body1 0).1.map InventoryItem.id = some 1) ∧
    ((createInventoryItem (createInventoryItem s40 body1 0).2 body1 0).1.map
      InventoryItem.id = some 2) := by decide

/-- C4 (amended): for every sequence of item creations within one tenant
*whose pattern contains at least one placeholder character*, the i-th created
item's asset id embeds the counter value `start + i` — so the embedded counter
strictly increases with creation order — no two created items share an asset
id, and the tenant counter ends at `start + N`.  (For a pattern with no
placeholder, all items get the literal pattern as id, per the
counterexample.) -/
theorem createSeq_assetIds_unique (s : Storage) (cid : Nat) (c : Company)
    (datas : List InsertInventoryItem) (now : Nat)
    (hc : getCompany s cid = some c) (hhash : '#' ∈ c.assetIdPattern)
    (hall : ∀ d ∈ datas, d.companyId = cid) :
    ((createSeq s datas now).1.map InventoryItem.assetId =
      (List.range datas.length).map
        (fun i => replaceRuns c.assetIdPattern (c.currentAssetId + i))) ∧
    getCompany (createSeq s datas now).2 cid =
      some { c with currentAssetId := c.currentAssetId + datas.length } ∧
    List.Pairwise (fun a b => a.assetId ≠ b.assetId) (createSeq s datas now).1 := by
  obtain ⟨hmap, hfin⟩ := createSeq_spec datas s c cid now hc hall
  refine ⟨hmap, hfin, ?_⟩
  have hnodup : ((createSeq s datas now).1.map InventoryItem.assetId).Nodup := by
    rw [hmap]
    refine List.Nodup.map ?_ (List.nodup_range datas.length)
    intro a b hab
    have := replaceRuns_inj hhash hab
    omega
  have := (List.pairwise_map).mp hnodup
  exact this

/-- C4 witness: two creations with pattern `"A-####"` from counter 1 issue
`A-0001` then `A-0002`, pairwise distinct, and leave the counter at 3. -/
theorem createSeq_assetIds_unique_witness :
    ((createSeq s70 [body1, body1] 0).1.map InventoryItem.assetId =
      (List.range 2).map
        (fun i => replaceRuns com1.assetIdPattern (com1.currentAssetId + i))) ∧
    getCompany (createSeq s70 [body1, body1] 0).2 1 =
      some { com1 with currentAssetId := com1.currentAssetId + 2 } ∧
    List.Pairwise (fun a b => a.assetId ≠ b.assetId) (createSeq s70 [body1, body1] 0).1 :=
  createSeq_assetIds_unique s70 1 com1 [body1, body1] 0 (by decide) (by decide)
    (by decide)

/-- C2 counterexample: for pattern `"##-##"` and counter 7 the code produces
`"07-07"`, substituting *both* runs, not the first-run-only result `"07-##"`
that the claim describes. -/
theorem replaceRuns_both_runs_cx :
    replaceRuns "##-##".data 7 = "07-07".data ∧
    firstRunOnly "##-##".data 7 = ['0', '7', '-', '#', '#'] ∧
    replaceRuns "##-##".data 7 ≠ firstRunOnly "##-##".data 7 := by decide

theorem replaceRuns_buildPattern (tail : List Char) (n : Nat) (htail : '#' ∉ tail) :
    ∀ segs : List (List Char × Nat),
    (∀ p ∈ segs, '#' ∉ p.1 ∧ 1 ≤ p.2) →
    (∀ p ∈ segs.drop 1, p.1 ≠ []) →
    replaceRuns (buildPattern segs tail) n = buildRendered segs tail n := by
  intro segs
  induction segs with
  | nil =>
    intro _ _
    exact replaceRuns_no_hash htail n
  | cons seg rest ih =>
    intro h1 h2
    obtain ⟨a, L⟩ := seg
    obtain ⟨ha, hL⟩ := h1 (a, L) (by simp)
    have hhd : headNotHash (buildPattern rest tail) := by
      cases rest with
      | nil => exact headNotHash_of_not_mem htail
      | cons seg2 rest2 =>
        obtain ⟨b, M⟩ := seg2
        have hbne : b ≠ [] := h2 (b, M) (by simp)
        have hb : '#' ∉ b := (h1 (b, M) (by simp)).1
        cases b with
        | nil => exact absurd rfl hbne
        | cons c cs =>
          intro c' cs' hcc
          have hhead : c' = c := by
            have := congrArg (fun l => l.head?) hcc.symm
            simpa [buildPattern] using this
          subst hhead
          intro hc
          exact hb (by simp [hc])
    show replaceRuns (a ++ List.replicate L '#' ++ buildPattern rest tail) n = _
    rw [replaceRuns_segment ha hL hhd n,
      ih (fun p hp => h1 p (by simp [hp]))
        (fun p hp => h2 p (by simpa using List.mem_of_mem_drop hp))]
    rfl

/-- C2 (amended): for a pattern containing two or more disjoint maximal
placeholder runs — assembled from `'#'`-free literal chunks and runs, with the
chunks between runs nonempty — `generateAssetId` substitutes the counter into
*every* run, each padded to its own run's length (global replace); no run is
left literal. -/
theorem replaceRuns_substitutes_every_run (segs : List (List Char × Nat))
    (tail : List Char) (n : Nat) (_hcount : 2 ≤ segs.length)
    (hok : ∀ p ∈ segs, '#' ∉ p.1 ∧ 1 ≤ p.2)
    (hsep : ∀ p ∈ segs.drop 1, p.1 ≠ []) (htail : '#' ∉ tail) :
    replaceRuns (buildPattern segs tail) n = buildRendered segs tail n :=
  replaceRuns_buildPattern tail n htail segs hok hsep

/-- C2 witness: the three-run pattern `"##-##-#"` at counter 7 renders as
`"07-07-7"`, substituting all three runs. -/
theorem replaceRuns_substitutes_every_run_witness :
    replaceRuns (buildPattern [([], 2), (['-'], 2), (['-'], 1)] []) 7 =
      buildRendered [([], 2), (['-'], 2), (['-'], 1)] [] 7 ∧
    buildPattern [([], 2), (['-'], 2), (['-'], 1)] [] = "##-##-#".data ∧
    buildRendered [([], 2), (['-'], 2), (['-'], 1)] [] 7 = "07-07-7".data :=
  ⟨replaceRuns_substitutes_every_run [([], 2), (['-'], 2), (['-'], 1)] [] 7
    (by decide) (by decide) (by decide) (by decide), by decide, by decide⟩

/-- C3: a single placeholder run is replaced by the counter left-padded with
zeros to the run's length and never truncated; a pattern with no placeholder
is returned literally; and the three concrete examples from the spec hold. -/
theorem generateAssetId_rendering :
    (∀ (p : List Char) (n : Nat), '#' ∉ p → replaceRuns p n = p) ∧
    (∀ (a b : List Char) (L n : Nat), '#' ∉ a → '#' ∉ b → 1 ≤ L →
      replaceRuns (a ++ List.replicate L '#' ++ b) n = a ++ padNum L n ++ b) ∧
    (∀ (L n : Nat),
      padNum L n = List.replicate (L - (decRepr n).length) '0' ++ decRepr n ∧
      (padNum L n).length = max L (decRepr n).length) ∧
    replaceRuns "A-####".data 7 = "A-0007".data ∧
    replaceRuns "A-####".data 12345 = "A-12345".data ∧
    (∀ n : Nat, replaceRuns "ITEM".data n = "ITEM".data) := by
  refine ⟨fun p n hp => replaceRuns_no_hash hp n,
    fun a b L n ha hb hL => replaceRuns_single ha hb hL n,
    fun L n => ⟨rfl, padNum_length L n⟩,
    by decide, by decide,
    fun n => replaceRuns_no_hash (by decide) n⟩

/-- C3 witness: the single-run and no-run clauses at concrete inputs. -/
theorem generateAssetId_rendering_witness :
    replaceRuns ("B-".data ++ List.replicate 3 '#' ++ "X".data) 42 =
      "B-".data ++ padNum 3 42 ++ "X".data ∧
    replaceRuns "NOHASH".data 9 = "NOHASH".data :=
  ⟨generateAssetId_rendering.2.1 "B-".data "X".data 3 42 (by decide) (by decide)
    (by decide),
   generateAssetId_rendering.1 "NOHASH".data 9 (by decide)⟩

/-- C5: updating an item's department id (a transfer) leaves every
department's cached item count and capacity unchanged — the code performs no
capacity accounting on transfer, contradicting spec §4.3. -/
theorem updateInventoryItem_transfer_no_accounting :
    ((updateInventoryItem s50 1 { departmentId := some 2 } 5).map
      (fun r => (r.1.departmentId, r.2.departments)) = some (2, s50.departments)) ∧
    ((putInventory s50 admin1 1 { departmentId := some 2 } 5).2.departments =
      s50.departments) ∧
    (putInventory s50 admin1 1 { departmentId := some 2 } 5).1 =
      RouteResp.okItem { item1 1 with departmentId := 2, updatedBy := 7, updatedAt := 5 } := by
  decide

/-- C6 counterexample: a cross-tenant PUT and DELETE are answered with
403 `Access denied` — a response distinguishable from the 404 `Item not
found` shape, so the outcome is not not-found-equivalent. -/
theorem crossTenant_put_delete_responds_403 :
    (putInventory s60 admin1 1 {} 5).1 = RouteResp.forbidden "Access denied".data ∧
    (deleteInventory s60 admin1 1 5).1 = RouteResp.forbidden "Access denied".data ∧
    RouteResp.forbidden "Access denied".data ≠
      RouteResp.notFound "Item not found".data ∧
    (putInventory s60 admin1 1 {} 5).2 = s60 ∧
    (deleteInventory s60 admin1 1 5).2 = s60 := by decide

/-- C6 (amended): a cross-tenant update or delete is always denied (403
`Access denied`, with no state change), and the tenant check happens before
any role-based check: the outcome is the same for every caller role. -/
theorem crossTenant_denied_before_role (s : Storage) (user : AuthUser)
    (itemId : Nat) (body : ItemPatch) (now : Nat) (item : InventoryItem)
    (h : getInventoryItem s itemId = some item)
    (hne : item.companyId ≠ user.companyId) :
    putInventory s user itemId body now = (RouteResp.forbidden "Access denied".data, s) ∧
    deleteInventory s user itemId now = (RouteResp.forbidden "Access denied".data, s) ∧
    (∀ r : List Char, putInventory s { user with role := r } itemId body now =
      putInventory s user itemId body now) ∧
    (∀ r : List Char, deleteInventory s { user with role := r } itemId now =
      deleteInventory s user itemId now) := by
  refine ⟨?_, ?_, fun r => ?_, fun r => ?_⟩ <;>
    simp [putInventory, deleteInventory, h, hne]

/-- C6 witness: the amended statement at the concrete cross-tenant fixture. -/
theorem crossTenant_denied_before_role_witness :
    putInventory s60 admin1 1 {} 5 = (RouteResp.forbidden "Access denied".data, s60) ∧
    deleteInventory s60 admin1 1 5 = (RouteResp.forbidden "Access denied".data, s60) ∧
    (∀ r : List Char, putInventory s60 { admin1 with role := r } 1 {} 5 =
      putInventory s60 admin1 1 {} 5) ∧
    (∀ r : List Char, deleteInventory s60 { admin1 with role := r } 1 5 =
      deleteInventory s60 admin1 1 5) :=
  crossTenant_denied_before_role s60 admin1 1 {} 5 ({ item1 1 with companyId := 2 })
    (by decide) (by decide)

/-- C9 counterexample: an update whose payload carries an `assetId` field
overwrites the stored auto-generated asset id (`{ ...item, ...data }` applies
every supplied field). -/
theorem update_changes_assetId_cx :
    ((updateInventoryItem s50 1 { assetId := some "HACK".data } 5).map
      (fun r => r.1.assetId) = some "HACK".data) ∧
    ((getInventoryItem s50 1).map InventoryItem.assetId = some "A-0001".data) ∧
    "HACK".data ≠ "A-0001".data := by decide

/-- C9 (amended): an update whose payload does not carry an `assetId` field
preserves the item's asset id. -/
theorem updateInventoryItem_preserves_assetId (s : Storage) (id : Nat)
    (data : ItemPatch) (now : Nat) (item : InventoryItem)
    (h : getInventoryItem s id = some item) (hp : data.assetId = none) :
    ∃ item' s', updateInventoryItem s id data now = some (item', s') ∧
      item'.assetId = item.assetId := by
  unfold updateInventoryItem
  rw [h]
  exact ⟨_, _, rfl, by simp [applyItemPatch, hp]⟩

/-- C9 witness: a name-only update at the concrete fixture keeps `A-0001`. -/
theorem updateInventoryItem_preserves_assetId_witness :
    ∃ item' s', updateInventoryItem s50 1 ({ name := some "New".data } : ItemPatch) 5 =
      some (item', s') ∧ item'.assetId = (item1 1).assetId :=
  updateInventoryItem_preserves_assetId s50 1 _ 5 (item1 1) (by decide) (by decide)

/-- C10: `generateAssetId` on an existing company returns the rendered
pattern, advances that company's counter by exactly one while changing no
other company field, and leaves every other part of the store untouched —
also when the pattern has no placeholder run. -/
theorem generateAssetId_counter_frame (s : Storage) (cid : Nat) (c : Company)
    (h : getCompany s cid = some c) :
    ∃ s', generateAssetId s cid =
        some (replaceRuns c.assetIdPattern c.currentAssetId, s') ∧
      s'.companies = setById Company.id s.companies
        ({ c with currentAssetId := c.currentAssetId + 1 }) ∧
      getCompany s' cid = some { c with currentAssetId := c.currentAssetId + 1 } ∧
      s'.departments = s.departments ∧
      s'.userDepartments = s.userDepartments ∧
      s'.inventoryItems = s.inventoryItems ∧
      s'.activityLogs = s.activityLogs ∧
      s'.inventoryItemIdCounter = s.inventoryItemIdCounter ∧
      s'.activityLogIdCounter = s.activityLogIdCounter :=
  generateAssetId_spec s cid c h

/-- C10 witness: the frame property at the concrete one-company store. -/
theorem generateAssetId_counter_frame_witness :
    ∃ s', generateAssetId s70 1 =
        some (replaceRuns com1.assetIdPattern com1.currentAssetId, s') ∧
      s'.companies = setById Company.id s70.companies
        ({ com1 with currentAssetId := com1.currentAssetId + 1 }) ∧
      getCompany s' 1 = some { com1 with currentAssetId := com1.currentAssetId + 1 } ∧
      s'.departments = s70.departments ∧
      s'.userDepartments = s70.userDepartments ∧
      s'.inventoryItems = s70.inventoryItems ∧
      s'.activityLogs = s70.activityLogs ∧
      s'.inventoryItemIdCounter = s70.inventoryItemIdCounter ∧
      s'.activityLogIdCounter = s70.activityLogIdCounter :=
  generateAssetId_counter_frame s70 1 com1 (by decide)

/-- C1: when only the activity-log insert fails, the database-backed POST
flow answers 500 yet persists the item row, the consumed tenant counter and
the raised department counters while writing no audit row — a partial state
that is neither a full commit, nor a rollback, nor the sanctioned
skipped-accounting outcome. -/
theorem dbPostInventory_partial_commit :
    (dbPostInventory failAtLog s70 admin1 body1 0).1 = RouteResp.serverError ∧
    (dbPostInventory failAtLog s70 admin1 body1 0).2.inventoryItems.map
      InventoryItem.id = [1] ∧
    (getCompany (dbPostInventory failAtLog s70 admin1 body1 0).2 1).map
      Company.currentAssetId = some 2 ∧
    (getDepartment (dbPostInventory failAtLog s70 admin1 body1 0).2 1).map
      Department.assetCount = some 1 ∧
    (getDepartment (dbPostInventory failAtLog s70 admin1 body1 0).2 1).map
      Department.capacityUsed = some 10 ∧
    (dbPostInventory failAtLog s70 admin1 body1 0).2.activityLogs = [] := by decide

end InventoryApp
